import Mathlib

/-
Verification of the attachment resolution & acquisition engine of the
"Passing" repository.  Each component used by a claim is embedded as a
pure Lean definition translated from the TypeScript source:

* `ManifestA`  — `src/unnamed/part_002` (`Manifest`, `updateStats`, `add`)
* `ManifestB`  — `src/src/utils/manifest.ts` (`Manifest`, `updateStats`, `add`)

Later sections embed `src/src/lib/manifest.ts` (`ManifestManager`,
`FileDownloader`, `UrlResolver`), `src/unnamed/part_004` (`RateLimiter`),
`src/unnamed/part_005` (`Downloader`), and
`src/src/utils/downloader.ts` (`clickResolveAndSaveV2` and the direct-URL
reconstruction helpers).
-/

set_option maxHeartbeats 1000000
set_option maxRecDepth 100000

namespace Passing

/-! ### Small string helpers shared by several embeddings -/

/-- JavaScript `String.prototype.includes` on char lists: does `needle`
occur as a contiguous segment of `hay`? -/
def segIn (needle : List Char) : List Char → Bool
  | [] => needle.isEmpty
  | c :: t => needle.isPrefixOf (c :: t) || segIn needle t

/-- JavaScript `s.includes(pat)`. -/
def strIncludes (s pat : String) : Bool := segIn pat.toList s.toList

/-- ASCII lower-casing of one character (the alphabet of the content
types and markers below is ASCII). -/
def lowerChar (c : Char) : Char :=
  if 65 ≤ c.toNat && c.toNat ≤ 90 then Char.ofNat (c.toNat + 32) else c

/-- `s.toLowerCase()` over the ASCII range. -/
def strLower (s : String) : String := String.mk (s.toList.map lowerChar)

/-- Does `s` start with `pre`? -/
def strStarts (s pre : String) : Bool := pre.toList.isPrefixOf s.toList

/-- Does `s` end with `suf`? -/
def strEnds (s suf : String) : Bool := suf.toList.isSuffixOf s.toList

/-! ### `ManifestA`: the `Manifest` class of `src/unnamed/part_002` -/

/-- `Attachment.kind` of part_002: `'file' | 'link'`. -/
inductive AKind where
  | file
  | link
deriving DecidableEq, Repr

/-- `Attachment` of part_002 (fields not consulted by `updateStats` are kept
only when some claim reads them). -/
structure AttachmentA where
  kind : AKind
  code : String
  label : String
  url : String
  size : Option Nat
  success : Bool
  error : Option String := none
deriving DecidableEq, Repr

/-- `ManifestData.stats` of part_002. -/
structure StatsA where
  ok : Nat
  fail : Nat
  skipped : Nat
  retries : Nat
  totalFiles : Nat
  totalSize : Nat
  codes : List String
deriving DecidableEq, Repr

/-- The mutable state of a part_002 `Manifest` (`attachments`, `missing`,
`stats`; the constant metadata strings are omitted). -/
structure MDataA where
  attachments : List AttachmentA
  missing : List String
  stats : StatsA
deriving DecidableEq, Repr

/-- part_002 constructor state: `attachments: [], missing: [], stats: zeros`. -/
def initA : MDataA :=
  { attachments := [], missing := [],
    stats := { ok := 0, fail := 0, skipped := 0, retries := 0,
               totalFiles := 0, totalSize := 0, codes := [] } }

/-- Codes of successful `file` attachments, in order
(`successful.map(a => a.code)` where `successful` filters `kind === 'file'`
then `success`). -/
def successCodesA (l : List AttachmentA) : List String :=
  ((l.filter (fun a => a.kind == AKind.file)).filter (fun a => a.success)).map
    (fun a => a.code)

/-- part_002 `missing` computation:
`Array.from(requiredCodes).filter(code => !codes.has(code)).sort()`.
`requiredCodes` is a JS `Set`, modelled by deduplicating the constructor
list; `.sort()` is the default lexicographic string sort. -/
def missingA (required : List String) (l : List AttachmentA) : List String :=
  ((required.dedup).filter (fun c => !((successCodesA l).contains c))).mergeSort

/-- part_002 `Manifest.updateStats` (private, called by `add`). -/
def updateStatsA (required : List String) (d : MDataA) : MDataA :=
  let files := d.attachments.filter (fun a => a.kind == AKind.file)
  let successful := files.filter (fun a => a.success)
  let failed := files.filter (fun a => !a.success)
  let links := d.attachments.filter (fun a => a.kind == AKind.link)
  { d with
    stats :=
      { ok := successful.length, fail := failed.length, skipped := links.length,
        retries := 0, totalFiles := files.length,
        totalSize := successful.foldl (fun s a => s + a.size.getD 0) 0,
        codes := ((successful.map (fun a => a.code)).dedup).mergeSort },
    missing := missingA required d.attachments }

/-- part_002 `Manifest.add`: push the attachment, then `updateStats()`. -/
def addA (required : List String) (d : MDataA) (a : AttachmentA) : MDataA :=
  updateStatsA required { d with attachments := d.attachments ++ [a] }

/-! ### `ManifestB`: the `Manifest` class of `src/src/utils/manifest.ts` -/

/-- `Attachment` of `src/src/utils/manifest.ts` (no `kind` field there). -/
structure AttachmentB where
  code : String
  label : String
  url : String
  size : Nat
  success : Bool
deriving DecidableEq, Repr

/-- `ManifestData.stats` of `src/src/utils/manifest.ts`. -/
structure StatsB where
  total : Nat
  success : Nat
  failed : Nat
  totalSize : Nat
  codes : List String
deriving DecidableEq, Repr

/-- State of a `src/src/utils/manifest.ts` `Manifest`. -/
structure MDataB where
  attachments : List AttachmentB
  missing : List String
  stats : StatsB
deriving DecidableEq, Repr

/-- utils/manifest.ts constructor state. -/
def initB : MDataB :=
  { attachments := [], missing := [],
    stats := { total := 0, success := 0, failed := 0, totalSize := 0, codes := [] } }

/-- Codes of successful attachments (`successful.map(a => a.code)`). -/
def successCodesB (l : List AttachmentB) : List String :=
  (l.filter (fun a => a.success)).map (fun a => a.code)

/-- utils/manifest.ts `missing` computation. -/
def missingB (required : List String) (l : List AttachmentB) : List String :=
  ((required.dedup).filter (fun c => !((successCodesB l).contains c))).mergeSort

/-- utils/manifest.ts `Manifest.updateStats`. -/
def updateStatsB (required : List String) (d : MDataB) : MDataB :=
  let successful := d.attachments.filter (fun a => a.success)
  { d with
    stats :=
      { total := d.attachments.length, success := successful.length,
        failed := d.attachments.length - successful.length,
        totalSize := successful.foldl (fun s a => s + a.size) 0,
        codes := ((successful.map (fun a => a.code)).dedup).mergeSort },
    missing := missingB required d.attachments }

/-- utils/manifest.ts `Manifest.add`. -/
def addB (required : List String) (d : MDataB) (a : AttachmentB) : MDataB :=
  updateStatsB required { d with attachments := d.attachments ++ [a] }

/-- The default required-category list of both manifest classes. -/
def defaultRequiredA : List String := ["AP", "REG", "BLD", "ZON", "RS"]

/-! ### Lemmas about the derived `missing` field -/

theorem missingA_sorted (required : List String) (l : List AttachmentA) :
    List.Sorted (· ≤ ·) (missingA required l) :=
  List.sorted_mergeSort' _

theorem missingB_sorted (required : List String) (l : List AttachmentB) :
    List.Sorted (· ≤ ·) (missingB required l) :=
  List.sorted_mergeSort' _

theorem mem_missingA (required : List String) (l : List AttachmentA) (c : String) :
    c ∈ missingA required l ↔
      c ∈ required ∧
        ∀ a ∈ l, a.kind = AKind.file → a.success = true → a.code ≠ c := by
  unfold missingA
  rw [(List.mergeSort_perm _ _).mem_iff, List.mem_filter, List.mem_dedup]
  simp [successCodesA]
  tauto

theorem mem_missingB (required : List String) (l : List AttachmentB) (c : String) :
    c ∈ missingB required l ↔
      c ∈ required ∧ ∀ a ∈ l, a.success = true → a.code ≠ c := by
  unfold missingB
  rw [(List.mergeSort_perm _ _).mem_iff, List.mem_filter, List.mem_dedup]
  simp [successCodesB]

theorem addA_missing (required : List String) (d : MDataA) (a : AttachmentA) :
    (addA required d a).missing = missingA required (addA required d a).attachments :=
  rfl

theorem addB_missing (required : List String) (d : MDataB) (a : AttachmentB) :
    (addB required d a).missing = missingB required (addB required d a).attachments :=
  rfl

theorem foldl_addA_missing (required : List String) (opsA : List AttachmentA)
    (hA : opsA ≠ []) (d : MDataA) :
    (opsA.foldl (addA required) d).missing =
      missingA required (opsA.foldl (addA required) d).attachments := by
  rcases List.eq_nil_or_concat opsA with h | ⟨L, b, h⟩
  · exact absurd h hA
  · subst h
    rw [List.concat_eq_append, List.foldl_concat]
    exact addA_missing required _ b

theorem foldl_addB_missing (required : List String) (opsB : List AttachmentB)
    (hB : opsB ≠ []) (d : MDataB) :
    (opsB.foldl (addB required) d).missing =
      missingB required (opsB.foldl (addB required) d).attachments := by
  rcases List.eq_nil_or_concat opsB with h | ⟨L, b, h⟩
  · exact absurd h hB
  · subst h
    rw [List.concat_eq_append, List.foldl_concat]
    exact addB_missing required _ b

/-! ### C1 -/

/-- C1 (amended): for every manifest state reached by at least one
`add`, in both manifest classes, the `missing` field equals the value
recomputed from the entry list — the required category set minus the
categories of successful file entries, sorted lexicographically.  (The
freshly constructed manifest, reachable by the empty operation sequence,
instead carries the constructor value `missing = []`; see the
counterexample.) -/
theorem c1_missing_recomputed (required : List String)
    (opsA : List AttachmentA) (opsB : List AttachmentB)
    (hA : opsA ≠ []) (hB : opsB ≠ []) :
    ((opsA.foldl (addA required) initA).missing =
        missingA required (opsA.foldl (addA required) initA).attachments ∧
      List.Sorted (· ≤ ·) (opsA.foldl (addA required) initA).missing ∧
      ∀ c, c ∈ (opsA.foldl (addA required) initA).missing ↔
        c ∈ required ∧
          ∀ a ∈ (opsA.foldl (addA required) initA).attachments,
            a.kind = AKind.file → a.success = true → a.code ≠ c) ∧
    ((opsB.foldl (addB required) initB).missing =
        missingB required (opsB.foldl (addB required) initB).attachments ∧
      List.Sorted (· ≤ ·) (opsB.foldl (addB required) initB).missing ∧
      ∀ c, c ∈ (opsB.foldl (addB required) initB).missing ↔
        c ∈ required ∧
          ∀ a ∈ (opsB.foldl (addB required) initB).attachments,
            a.success = true → a.code ≠ c) := by
  have hAm := foldl_addA_missing required opsA hA initA
  have hBm := foldl_addB_missing required opsB hB initB
  refine ⟨⟨hAm, ?_, ?_⟩, ⟨hBm, ?_, ?_⟩⟩
  · rw [hAm]; exact missingA_sorted _ _
  · intro c; rw [hAm]; exact mem_missingA _ _ _
  · rw [hBm]; exact missingB_sorted _ _
  · intro c; rw [hBm]; exact mem_missingB _ _ _

/-- C1 counterexample: the freshly constructed manifest is reachable by the
empty sequence of `add` operations, yet its `missing` field is the
constructor value `[]`, not the required set minus the (empty) set of
successful file categories: `"AP"` belongs to the recomputed value but not
to the stored field. -/
theorem c1_counterexample :
    ([] : List AttachmentA).foldl (addA defaultRequiredA) initA = initA ∧
    initA.missing = [] ∧
    "AP" ∈ missingA defaultRequiredA initA.attachments ∧
    initA.missing ≠ missingA defaultRequiredA initA.attachments := by
  refine ⟨rfl, rfl, ?_, ?_⟩
  · exact (mem_missingA _ _ _).mpr ⟨by simp [defaultRequiredA], by simp [initA]⟩
  · intro h
    have hmem : "AP" ∈ missingA defaultRequiredA initA.attachments :=
      (mem_missingA _ _ _).mpr ⟨by simp [defaultRequiredA], by simp [initA]⟩
    rw [← h] at hmem
    simp [initA] at hmem

/-- Concrete part_002 attachment used by the C1 witness. -/
def c1OpA : AttachmentA :=
  { kind := AKind.file, code := "AP", label := "l", url := "u",
    size := some 10, success := true }

/-- Concrete utils/manifest.ts attachment used by the C1 witness. -/
def c1OpB : AttachmentB :=
  { code := "AP", label := "l", url := "u", size := 10, success := true }

/-- C1 witness: the amended statement applied to a concrete one-operation
history in each manifest class. -/
theorem c1_witness :
    (([c1OpA].foldl (addA ["AP", "REG"]) initA).missing =
        missingA ["AP", "REG"]
          ([c1OpA].foldl (addA ["AP", "REG"]) initA).attachments ∧
      List.Sorted (· ≤ ·) ([c1OpA].foldl (addA ["AP", "REG"]) initA).missing ∧
      ∀ c, c ∈ ([c1OpA].foldl (addA ["AP", "REG"]) initA).missing ↔
        c ∈ ["AP", "REG"] ∧
          ∀ a ∈ ([c1OpA].foldl (addA ["AP", "REG"]) initA).attachments,
            a.kind = AKind.file → a.success = true → a.code ≠ c) ∧
    (([c1OpB].foldl (addB ["AP", "REG"]) initB).missing =
        missingB ["AP", "REG"]
          ([c1OpB].foldl (addB ["AP", "REG"]) initB).attachments ∧
      List.Sorted (· ≤ ·) ([c1OpB].foldl (addB ["AP", "REG"]) initB).missing ∧
      ∀ c, c ∈ ([c1OpB].foldl (addB ["AP", "REG"]) initB).missing ↔
        c ∈ ["AP", "REG"] ∧
          ∀ a ∈ ([c1OpB].foldl (addB ["AP", "REG"]) initB).attachments,
            a.success = true → a.code ≠ c) :=
  c1_missing_recomputed ["AP", "REG"] [c1OpA] [c1OpB] (by simp) (by simp)

/-! ### `src/src/lib/manifest.ts`: `ManifestManager.createManifest` and
`ManifestManager.mergeManifests` -/

/-- `DocumentCandidate` fields read by the manifest code (`code` is an
optional string in the source). -/
structure DocumentCandidate where
  code : Option String
  text : String
deriving DecidableEq, Repr

/-- `DownloadResult` of `src/src/lib/manifest.ts`. -/
structure DownloadResult where
  filename : String
  filepath : String
  size : Nat
  contentType : Option String := none
  success : Bool
  error : Option String := none
deriving DecidableEq, Repr

/-- `ResolvedUrl` fields read by `createManifest`. -/
structure ResolvedUrl where
  finalUrl : String
  method : String := "GET"
  contentType : Option String := none
  success : Bool
  error : Option String := none
deriving DecidableEq, Repr

/-- `ManifestEntry` fields consulted by the statistics code (the metadata
strings `filepath`, `finalUrl`, `method`, `contentType`, `timestamp` play
no role in any claim and are omitted). -/
structure ManifestEntry where
  code : Option String
  originalText : String
  filename : String
  size : Nat
  success : Bool
  error : Option String := none
deriving DecidableEq, Repr

/-- JavaScript truthiness of the optional `code` string (`undefined` and
the empty string are falsy). -/
def codeTruthy : Option String → Bool
  | none => false
  | some s => !(s == "")

/-- JavaScript `a || b` for an optional string `a` (falsy when absent or
empty). -/
def orElseStr (a : Option String) (b : String) : String :=
  match a with
  | none => b
  | some s => if s == "" then b else s

/-- `Manifest.summary` of `src/src/lib/manifest.ts`. -/
structure Summary where
  foundCodes : List String
  totalSize : Nat
  successCount : Nat
  failCount : Nat
deriving DecidableEq, Repr

/-- `Manifest` of `src/src/lib/manifest.ts` (`casePrefix` and `metadata`
carry no claim-relevant information and are omitted). -/
structure LibManifest where
  totalCandidates : Nat
  processedFiles : List ManifestEntry
  missing : List String
  summary : Summary
deriving DecidableEq, Repr

/-- `ManifestManager.requiredCodes`, in source order. -/
def requiredCodes : List String := ["AP", "RS", "REG", "BLD", "ZON"]

/-- One iteration of the `createManifest` loop: the entry built for
candidate `c`, resolution `r`, download outcome `d`. -/
def mkEntry (c : DocumentCandidate) (r : ResolvedUrl) (d : DownloadResult) :
    ManifestEntry :=
  { code := c.code, originalText := c.text, filename := d.filename,
    size := d.size, success := d.success,
    error := if d.success then none
             else some (orElseStr d.error (orElseStr r.error "Unknown error")) }

/-- The entry list built by the `createManifest` loop (the source indexes
three parallel arrays; equal lengths are assumed by the callers). -/
def entriesOf (cs : List DocumentCandidate) (rs : List ResolvedUrl)
    (ds : List DownloadResult) : List ManifestEntry :=
  (cs.zip (rs.zip ds)).map (fun p => mkEntry p.1 p.2.1 p.2.2)

/-- Entries that pass the `entry.success && entry.code` guard shared by
`createManifest` and `mergeManifests`. -/
def successCodeEntries (es : List ManifestEntry) : List ManifestEntry :=
  es.filter (fun e => e.success && codeTruthy e.code)

/-- The `foundCodes` set (insertion-ordered, deduplicated). -/
def foundCodesOf (es : List ManifestEntry) : List String :=
  ((successCodeEntries es).map (fun e => e.code.getD "")).dedup

/-- `successCount` accumulated by the guard. -/
def successCountOf (es : List ManifestEntry) : Nat :=
  (successCodeEntries es).length

/-- `totalSize` accumulated by the guard. -/
def totalSizeOf (es : List ManifestEntry) : Nat :=
  (successCodeEntries es).foldl (fun s e => s + e.size) 0

/-- `missing` of `createManifest`/`mergeManifests`:
`requiredCodes.filter(code => !foundCodes.has(code))` (source order, not
sorted in this class). -/
def libMissingOf (es : List ManifestEntry) : List String :=
  requiredCodes.filter (fun c => !((foundCodesOf es).contains c))

/-- `ManifestManager.createManifest` (pure part: the returned object;
file writing and logging omitted). -/
def createManifest (cs : List DocumentCandidate) (rs : List ResolvedUrl)
    (ds : List DownloadResult) : LibManifest :=
  let es := entriesOf cs rs ds
  { totalCandidates := cs.length, processedFiles := es,
    missing := libMissingOf es,
    summary := { foundCodes := (foundCodesOf es).mergeSort,
                 totalSize := totalSizeOf es,
                 successCount := successCountOf es,
                 failCount := cs.length - successCountOf es } }

/-- `ManifestManager.mergeManifests`: concatenate entry lists (no
deduplication), add `totalCandidates`, recompute summary and `missing`
from the concatenation. -/
def mergeManifests (existing newM : LibManifest) : LibManifest :=
  let files := existing.processedFiles ++ newM.processedFiles
  let total := existing.totalCandidates + newM.totalCandidates
  { totalCandidates := total, processedFiles := files,
    missing := libMissingOf files,
    summary := { foundCodes := (foundCodesOf files).mergeSort,
                 totalSize := totalSizeOf files,
                 successCount := successCountOf files,
                 failCount := total - successCountOf files } }

/-! ### Lemmas about `foundCodesOf` and `libMissingOf` -/

theorem mem_foundCodesOf (es : List ManifestEntry) (c : String) :
    c ∈ foundCodesOf es ↔
      ∃ e ∈ es, e.success = true ∧ e.code = some c ∧ c ≠ "" := by
  unfold foundCodesOf successCodeEntries
  rw [List.mem_dedup]
  simp only [List.mem_map, List.mem_filter, Bool.and_eq_true]
  constructor
  · rintro ⟨e, ⟨he, hs, ht⟩, hc⟩
    cases hcode : e.code with
    | none => rw [hcode] at ht; simp [codeTruthy] at ht
    | some s =>
      rw [hcode] at ht hc
      simp [codeTruthy] at ht
      simp at hc
      subst hc
      exact ⟨e, he, hs, hcode, ht⟩
  · rintro ⟨e, he, hs, hc, hne⟩
    exact ⟨e, ⟨he, hs, by simp [codeTruthy, hc, hne]⟩, by simp [hc]⟩

theorem mem_foundCodesOf_append (es1 es2 : List ManifestEntry) (c : String) :
    c ∈ foundCodesOf (es1 ++ es2) ↔
      c ∈ foundCodesOf es1 ∨ c ∈ foundCodesOf es2 := by
  simp only [mem_foundCodesOf, List.mem_append]
  constructor
  · rintro ⟨e, he | he, h⟩
    · exact Or.inl ⟨e, he, h⟩
    · exact Or.inr ⟨e, he, h⟩
  · rintro (⟨e, he, h⟩ | ⟨e, he, h⟩)
    · exact ⟨e, Or.inl he, h⟩
    · exact ⟨e, Or.inr he, h⟩

theorem libMissingOf_congr (es1 es2 : List ManifestEntry)
    (h : ∀ c, c ∈ foundCodesOf es1 ↔ c ∈ foundCodesOf es2) :
    libMissingOf es1 = libMissingOf es2 := by
  unfold libMissingOf
  refine List.filter_congr fun c _ => ?_
  simp [h c]

/-- Three-way partition of an entry list by the summary guard. -/
theorem entries_partition (es : List ManifestEntry) :
    es.length =
      (es.filter (fun e => e.success && codeTruthy e.code)).length +
        ((es.filter (fun e => !e.success)).length +
          (es.filter (fun e => e.success && !(codeTruthy e.code))).length) := by
  induction es with
  | nil => rfl
  | cons e t ih =>
    by_cases hs : e.success = true <;> by_cases ht : codeTruthy e.code = true <;>
      simp [List.filter_cons, hs, ht] <;> omega

theorem entriesOf_length (cs : List DocumentCandidate) (rs : List ResolvedUrl)
    (ds : List DownloadResult) (h1 : rs.length = cs.length)
    (h2 : ds.length = cs.length) :
    (entriesOf cs rs ds).length = cs.length := by
  simp [entriesOf, h1, h2]

/-! ### C2 -/

/-- C2: `mergeManifests` concatenates the two entry lists with no
deduplication and recomputes the summary and `missing` from the
concatenation; consequently, when the second run resolves exactly the
categories the first run resolved, merging leaves `missing` unchanged. -/
theorem c2_merge_concat_idempotent :
    (∀ m1 m2 : LibManifest,
      (mergeManifests m1 m2).processedFiles =
          m1.processedFiles ++ m2.processedFiles ∧
        (mergeManifests m1 m2).missing =
          libMissingOf (m1.processedFiles ++ m2.processedFiles) ∧
        (mergeManifests m1 m2).summary.successCount =
          successCountOf (m1.processedFiles ++ m2.processedFiles) ∧
        (mergeManifests m1 m2).summary.totalSize =
          totalSizeOf (m1.processedFiles ++ m2.processedFiles) ∧
        ∀ c, c ∈ (mergeManifests m1 m2).summary.foundCodes ↔
          c ∈ foundCodesOf (m1.processedFiles ++ m2.processedFiles)) ∧
    (∀ cs1 rs1 ds1 cs2 rs2 ds2,
      (∀ c ∈ foundCodesOf (entriesOf cs2 rs2 ds2),
          c ∈ foundCodesOf (entriesOf cs1 rs1 ds1)) →
      (∀ c ∈ foundCodesOf (entriesOf cs1 rs1 ds1),
          c ∈ foundCodesOf (entriesOf cs2 rs2 ds2)) →
      (mergeManifests (createManifest cs1 rs1 ds1)
          (createManifest cs2 rs2 ds2)).missing =
        (createManifest cs1 rs1 ds1).missing) := by
  constructor
  · intro m1 m2
    exact ⟨rfl, rfl, rfl, rfl, fun c => (List.mergeSort_perm _ _).mem_iff⟩
  · intro cs1 rs1 ds1 cs2 rs2 ds2 h21 _h12
    simp only [mergeManifests, createManifest]
    apply libMissingOf_congr
    intro c
    rw [mem_foundCodesOf_append]
    constructor
    · rintro (h | h)
      · exact h
      · exact h21 c h
    · exact Or.inl

/-- Concrete candidate for the C2 witness. -/
def c2Cand : DocumentCandidate := { code := some "AP", text := "t" }

/-- Concrete resolution for the C2 witness. -/
def c2Res : ResolvedUrl := { finalUrl := "u", success := true }

/-- Concrete download outcome for the C2 witness. -/
def c2Dl : DownloadResult :=
  { filename := "f.pdf", filepath := "p", size := 100, success := true }

/-- C2 witness: merging two identical single-candidate runs leaves
`missing` unchanged. -/
theorem c2_witness :
    (mergeManifests (createManifest [c2Cand] [c2Res] [c2Dl])
        (createManifest [c2Cand] [c2Res] [c2Dl])).missing =
      (createManifest [c2Cand] [c2Res] [c2Dl]).missing :=
  c2_merge_concat_idempotent.2 [c2Cand] [c2Res] [c2Dl] [c2Cand] [c2Res] [c2Dl]
    (by decide) (by decide)

/-! ### C10 -/

/-- C10: in the summaries computed by `createManifest` and recomputed by
`mergeManifests`, an entry that downloaded successfully but whose
candidate carries no (truthy) category code is excluded from
`successCount`, `foundCodes` and `totalSize`, and — because `failCount`
is `totalCandidates - successCount` rather than the number of
unsuccessful entries — it is counted into `failCount`. -/
theorem c10_no_code_counts_failed (cs cs' : List DocumentCandidate)
    (rs rs' : List ResolvedUrl) (ds ds' : List DownloadResult)
    (h1 : rs.length = cs.length) (h2 : ds.length = cs.length)
    (h1' : rs'.length = cs'.length) (h2' : ds'.length = cs'.length) :
    ((createManifest cs rs ds).summary.successCount =
        ((entriesOf cs rs ds).filter
          (fun e => e.success && codeTruthy e.code)).length ∧
      (createManifest cs rs ds).summary.totalSize =
        ((entriesOf cs rs ds).filter
          (fun e => e.success && codeTruthy e.code)).foldl
            (fun s e => s + e.size) 0 ∧
      (∀ c, c ∈ (createManifest cs rs ds).summary.foundCodes ↔
        ∃ e ∈ entriesOf cs rs ds,
          e.success = true ∧ e.code = some c ∧ c ≠ "") ∧
      (createManifest cs rs ds).summary.failCount =
        ((entriesOf cs rs ds).filter (fun e => !e.success)).length +
          ((entriesOf cs rs ds).filter
            (fun e => e.success && !(codeTruthy e.code))).length) ∧
    (mergeManifests (createManifest cs rs ds)
        (createManifest cs' rs' ds')).summary.failCount =
      (((entriesOf cs rs ds ++ entriesOf cs' rs' ds').filter
          (fun e => !e.success)).length +
        ((entriesOf cs rs ds ++ entriesOf cs' rs' ds').filter
          (fun e => e.success && !(codeTruthy e.code))).length) := by
  have hlen := entriesOf_length cs rs ds h1 h2
  have hlen' := entriesOf_length cs' rs' ds' h1' h2'
  have hpart := entries_partition (entriesOf cs rs ds)
  have hpart' := entries_partition (entriesOf cs' rs' ds' )
  constructor
  · refine ⟨rfl, rfl, ?_, ?_⟩
    · intro c
      exact (List.mergeSort_perm _ _).mem_iff.trans (mem_foundCodesOf _ c)
    · show cs.length - successCountOf (entriesOf cs rs ds) = _
      unfold successCountOf successCodeEntries
      omega
  · show cs.length + cs'.length -
        successCountOf (entriesOf cs rs ds ++ entriesOf cs' rs' ds' ) = _
    have hpartBoth := entries_partition (entriesOf cs rs ds ++ entriesOf cs' rs' ds' )
    have hlenBoth :
        (entriesOf cs rs ds ++ entriesOf cs' rs' ds' ).length =
          cs.length + cs'.length := by
      rw [List.length_append, hlen, hlen']
    unfold successCountOf successCodeEntries
    omega

/-- Concrete candidate without a category code, for the C10 witness. -/
def c10Cand : DocumentCandidate := { code := none, text := "t" }

/-- C10 witness: a single successful download whose candidate has no code
yields `successCount = 0`, empty `foundCodes`, `totalSize = 0` and
`failCount = 1`. -/
theorem c10_witness :
    ((createManifest [c10Cand] [c2Res] [c2Dl]).summary.successCount =
        (((entriesOf [c10Cand] [c2Res] [c2Dl])).filter
          (fun e => e.success && codeTruthy e.code)).length ∧
      (createManifest [c10Cand] [c2Res] [c2Dl]).summary.totalSize =
        ((entriesOf [c10Cand] [c2Res] [c2Dl]).filter
          (fun e => e.success && codeTruthy e.code)).foldl
            (fun s e => s + e.size) 0 ∧
      (∀ c, c ∈ (createManifest [c10Cand] [c2Res] [c2Dl]).summary.foundCodes ↔
        ∃ e ∈ entriesOf [c10Cand] [c2Res] [c2Dl],
          e.success = true ∧ e.code = some c ∧ c ≠ "") ∧
      (createManifest [c10Cand] [c2Res] [c2Dl]).summary.failCount =
        ((entriesOf [c10Cand] [c2Res] [c2Dl]).filter
            (fun e => !e.success)).length +
          ((entriesOf [c10Cand] [c2Res] [c2Dl]).filter
            (fun e => e.success && !(codeTruthy e.code))).length) ∧
    (mergeManifests (createManifest [c10Cand] [c2Res] [c2Dl])
        (createManifest [c10Cand] [c2Res] [c2Dl])).summary.failCount =
      (((entriesOf [c10Cand] [c2Res] [c2Dl] ++
            entriesOf [c10Cand] [c2Res] [c2Dl]).filter
          (fun e => !e.success)).length +
        ((entriesOf [c10Cand] [c2Res] [c2Dl] ++
            entriesOf [c10Cand] [c2Res] [c2Dl]).filter
          (fun e => e.success && !(codeTruthy e.code))).length) :=
  c10_no_code_counts_failed [c10Cand] [c10Cand] [c2Res] [c2Res] [c2Dl] [c2Dl]
    rfl rfl rfl rfl

/-! ### `src/unnamed/part_005` (`Downloader.download`) and
`src/src/lib/manifest.ts` (`FileDownloader.downloadFile`) retry loops -/

/-- part_005 backoff delay slept after failing attempt `a` (0-based):
`Math.min(1000 * Math.pow(2, attempt), 10000)`. -/
def downloaderDelay (attempt : Nat) : Nat := min (1000 * 2 ^ attempt) 10000

/-- The part_005 `download` retry loop over an oracle `outcome` telling
whether attempt `a` succeeds; returns the number of attempts performed and
the backoff delays slept between consecutive attempts.  `remaining` counts
the loop iterations still allowed. -/
def downloadGo (outcome : Nat → Bool) (attempt : Nat) : Nat → Nat × List Nat
  | 0 => (0, [])
  | remaining + 1 =>
    if outcome attempt then (1, [])
    else if remaining = 0 then (1, [])
    else
      let r := downloadGo outcome (attempt + 1) remaining
      (r.1 + 1, downloaderDelay attempt :: r.2)

/-- part_005 `Downloader.download`:
`for (let attempt = 0; attempt <= retries; attempt++)`, sleeping
`min(1000 * 2^attempt, 10000)` ms after a failure when `attempt < retries`. -/
def downloadRun (retries : Nat) (outcome : Nat → Bool) : Nat × List Nat :=
  downloadGo outcome 0 (retries + 1)

/-- `FileDownloader` delay slept after failing attempt `a` (1-based):
`this.retryDelay * Math.pow(2, attempt - 1)` — no cap in the source. -/
def fileDownloaderDelay (retryDelay attempt : Nat) : Nat :=
  retryDelay * 2 ^ (attempt - 1)

/-- The `FileDownloader.downloadFile` retry loop (same shape, 1-based). -/
def fileDownloadGo (outcome : Nat → Bool) (retryDelay attempt : Nat) :
    Nat → Nat × List Nat
  | 0 => (0, [])
  | remaining + 1 =>
    if outcome attempt then (1, [])
    else if remaining = 0 then (1, [])
    else
      let r := fileDownloadGo outcome retryDelay (attempt + 1) remaining
      (r.1 + 1, fileDownloaderDelay retryDelay attempt :: r.2)

/-- `FileDownloader.downloadFile`:
`for (let attempt = 1; attempt <= this.maxRetries; attempt++)`, sleeping
`retryDelay * 2^(attempt-1)` ms after a failure when `attempt < maxRetries`. -/
def fileDownloadRun (maxRetries retryDelay : Nat) (outcome : Nat → Bool) :
    Nat × List Nat :=
  fileDownloadGo outcome retryDelay 1 maxRetries

theorem downloadGo_fail (outcome : Nat → Bool) (h : ∀ a, outcome a = false) :
    ∀ remaining attempt, remaining ≠ 0 →
      downloadGo outcome attempt remaining =
        (remaining, (List.range' attempt (remaining - 1)).map downloaderDelay) := by
  intro remaining
  induction remaining with
  | zero => intro _ hr; exact absurd rfl hr
  | succ r ih =>
    intro attempt _
    by_cases hr : r = 0
    · subst hr
      simp [downloadGo, h]
    · rw [downloadGo]
      simp only [h, if_false, hr, Nat.succ_sub_one]
      rw [ih attempt.succ hr]
      have : r = (r - 1) + 1 := (Nat.succ_pred_eq_of_pos (Nat.pos_of_ne_zero hr)).symm
      rw [this, List.range'_succ]
      simp

theorem fileDownloadGo_fail (outcome : Nat → Bool) (retryDelay : Nat)
    (h : ∀ a, outcome a = false) :
    ∀ remaining attempt, remaining ≠ 0 →
      fileDownloadGo outcome retryDelay attempt remaining =
        (remaining,
          (List.range' attempt (remaining - 1)).map
            (fileDownloaderDelay retryDelay)) := by
  intro remaining
  induction remaining with
  | zero => intro _ hr; exact absurd rfl hr
  | succ r ih =>
    intro attempt _
    by_cases hr : r = 0
    · subst hr
      simp [fileDownloadGo, h]
    · rw [fileDownloadGo]
      simp only [h, if_false, hr, Nat.succ_sub_one]
      rw [ih attempt.succ hr]
      have : r = (r - 1) + 1 := (Nat.succ_pred_eq_of_pos (Nat.pos_of_ne_zero hr)).symm
      rw [this, List.range'_succ]
      simp

theorem downloaderDelay_mono : Monotone downloaderDelay := by
  intro a b hab
  unfold downloaderDelay
  exact min_le_min (Nat.mul_le_mul_left _ (Nat.pow_le_pow_right (by norm_num) hab))
    le_rfl

theorem fileDownloaderDelay_mono (retryDelay : Nat) :
    Monotone (fileDownloaderDelay retryDelay) := by
  intro a b hab
  unfold fileDownloaderDelay
  exact Nat.mul_le_mul_left _
    (Nat.pow_le_pow_right (by norm_num) (Nat.sub_le_sub_right hab 1))

theorem pairwise_le_map_range' (f : Nat → Nat) (hf : Monotone f) (s n : Nat) :
    List.Pairwise (· ≤ ·) ((List.range' s n).map f) := by
  rw [List.pairwise_map]
  exact (List.pairwise_lt_range' s n 1 (by omega)).imp fun hab => hf (le_of_lt hab)

/-! ### C4 -/

/-- C4 (amended): when every attempt fails, the part_005 `Downloader`
makes exactly `retries + 1` attempts and its backoff delays
`min(1000·2^a, 10000)` are non-decreasing and bounded by the 10000 ms
cap; `FileDownloader.downloadFile`, however, makes exactly `maxRetries`
attempts (not `maxRetries + 1`) and its delays `retryDelay · 2^(a-1)`
are non-decreasing but follow no configured cap. -/
theorem c4_retry_schedule (retries maxRetries retryDelay : Nat)
    (outcome : Nat → Bool) (h : ∀ a, outcome a = false) :
    ((downloadRun retries outcome).1 = retries + 1 ∧
      (downloadRun retries outcome).2 =
        (List.range' 0 retries).map downloaderDelay ∧
      List.Pairwise (· ≤ ·) (downloadRun retries outcome).2 ∧
      ∀ d ∈ (downloadRun retries outcome).2, d ≤ 10000) ∧
    ((fileDownloadRun maxRetries retryDelay outcome).1 = maxRetries ∧
      (fileDownloadRun maxRetries retryDelay outcome).2 =
        (List.range' 1 (maxRetries - 1)).map (fileDownloaderDelay retryDelay) ∧
      List.Pairwise (· ≤ ·) (fileDownloadRun maxRetries retryDelay outcome).2) := by
  have hd := downloadGo_fail outcome h (retries + 1) 0 (by omega)
  constructor
  · rw [downloadRun, hd]
    refine ⟨rfl, by simp, pairwise_le_map_range' _ downloaderDelay_mono _ _, ?_⟩
    intro d hdm
    simp only [List.mem_map] at hdm
    obtain ⟨a, _, rfl⟩ := hdm
    exact min_le_right _ _
  · cases maxRetries with
    | zero => exact ⟨rfl, rfl, List.Pairwise.nil⟩
    | succ m =>
      have hf := fileDownloadGo_fail outcome retryDelay h (m + 1) 1 (by omega)
      rw [fileDownloadRun, hf]
      exact ⟨rfl, by simp,
        pairwise_le_map_range' _ (fileDownloaderDelay_mono retryDelay) _ _⟩

/-- C4 counterexample: with the default `maxRetries = 3` and every attempt
failing, `FileDownloader.downloadFile` performs 3 attempts, not
`maxRetries + 1 = 4` as the claim states for the transport. -/
theorem c4_counterexample :
    (fileDownloadRun 3 1000 (fun _ => false)).1 = 3 ∧
      (fileDownloadRun 3 1000 (fun _ => false)).1 ≠ 3 + 1 := by
  constructor <;> decide

/-- C4 witness: the amended schedule at `retries = 2`, `maxRetries = 3`,
`retryDelay = 1000`, with every attempt failing. -/
theorem c4_witness :
    ((downloadRun 2 (fun _ => false)).1 = 2 + 1 ∧
      (downloadRun 2 (fun _ => false)).2 =
        (List.range' 0 2).map downloaderDelay ∧
      List.Pairwise (· ≤ ·) (downloadRun 2 (fun _ => false)).2 ∧
      ∀ d ∈ (downloadRun 2 (fun _ => false)).2, d ≤ 10000) ∧
    ((fileDownloadRun 3 1000 (fun _ => false)).1 = 3 ∧
      (fileDownloadRun 3 1000 (fun _ => false)).2 =
        (List.range' 1 (3 - 1)).map (fileDownloaderDelay 1000) ∧
      List.Pairwise (· ≤ ·) (fileDownloadRun 3 1000 (fun _ => false)).2) :=
  c4_retry_schedule 2 3 1000 (fun _ => false) (fun _ => rfl)

/-! ### `src/unnamed/part_004`: `RateLimiter` -/

/-- `RateLimiter` state: the FIFO queue of pending tasks (ids), the number
of running tasks, and `lastRequest` (time of the last dispatch, `0`
initially as in the constructor). -/
structure RLState where
  queue : List Nat
  running : Nat
  lastRequest : ℚ
deriving DecidableEq, Repr

/-- Constructor state of `RateLimiter`. -/
def rlInit : RLState := { queue := [], running := 0, lastRequest := 0 }

/-- One synchronous invocation of `RateLimiter.process()` at time `now`:
return if `running >= concurrency` or the queue is empty; defer without
dispatching when `now - lastRequest < 1000 / qps` (the source re-schedules
itself with `setTimeout`, modelled by later `tick` events); otherwise
`shift()` the queue head, increment `running` and stamp `lastRequest`. -/
def processStep (c : Nat) (qps : ℚ) (now : ℚ) (s : RLState) :
    RLState × Option (ℚ × Nat) :=
  if s.running ≥ c then (s, none)
  else
    match s.queue with
    | [] => (s, none)
    | task :: rest =>
      if now - s.lastRequest < 1000 / qps then (s, none)
      else ({ queue := rest, running := s.running + 1, lastRequest := now },
            some (now, task))

/-- Events driving the limiter: `add()` (push, then a synchronous
`process()`), a scheduled `process()` invocation (`setTimeout` /
`process.nextTick`), and completion of a running task. -/
inductive RLEvent where
  | enqueue (task : Nat) (t : ℚ)
  | tick (t : ℚ)
  | complete (t : ℚ)
deriving DecidableEq, Repr

/-- Transition for one event. -/
def stepEv (c : Nat) (qps : ℚ) (s : RLState) :
    RLEvent → RLState × Option (ℚ × Nat)
  | .enqueue task t => processStep c qps t { s with queue := s.queue ++ [task] }
  | .tick t => processStep c qps t s
  | .complete _ => ({ s with running := s.running - 1 }, none)

/-- Run a list of events, accumulating the dispatched (time, task) pairs
in order. -/
def runEvents (c : Nat) (qps : ℚ) :
    RLState → List (ℚ × Nat) → List RLEvent → RLState × List (ℚ × Nat)
  | s, ds, [] => (s, ds)
  | s, ds, ev :: rest =>
    runEvents c qps (stepEv c qps s ev).1 (ds ++ (stepEv c qps s ev).2.toList) rest

/-- Tasks submitted by `add()`, in submission order. -/
def enqueuedIds (evs : List RLEvent) : List Nat :=
  evs.filterMap (fun ev => match ev with
    | .enqueue task _ => some task
    | _ => none)

theorem processStep_cases (c : Nat) (qps now : ℚ) (s : RLState) :
    processStep c qps now s = (s, none) ∨
      ∃ task rest, s.queue = task :: rest ∧ s.running < c ∧
        ¬(now - s.lastRequest < 1000 / qps) ∧
        processStep c qps now s =
          ({ queue := rest, running := s.running + 1, lastRequest := now },
            some (now, task)) := by
  unfold processStep
  split
  · exact Or.inl rfl
  · rename_i h1
    split
    · exact Or.inl rfl
    · rename_i task rest heq
      split
      · exact Or.inl rfl
      · rename_i h2
        exact Or.inr ⟨task, rest, heq, lt_of_not_ge h1, h2, rfl⟩

/-- The dispatch spacing relation used below. -/
def spaced (qps : ℚ) (a b : ℚ × Nat) : Prop := 1000 / qps ≤ b.1 - a.1

theorem stepEv_spec (c : Nat) (qps : ℚ) (s : RLState) (ev : RLEvent) :
    (s.running ≤ c → (stepEv c qps s ev).1.running ≤ c) ∧
      ((stepEv c qps s ev).2.toList.map Prod.snd ++ (stepEv c qps s ev).1.queue
        = s.queue ++ enqueuedIds [ev]) ∧
      ((stepEv c qps s ev).2 = none →
        (stepEv c qps s ev).1.lastRequest = s.lastRequest) ∧
      (∀ d, (stepEv c qps s ev).2 = some d →
        1000 / qps ≤ d.1 - s.lastRequest ∧
          (stepEv c qps s ev).1.lastRequest = d.1) := by
  cases ev with
  | enqueue task t =>
    rcases processStep_cases c qps t { s with queue := s.queue ++ [task] } with
      heq | ⟨tk, rest, hq, hlt, hns, heq⟩
    · refine ⟨?_, ?_, ?_, ?_⟩
      · intro h
        simp only [stepEv, heq]
        exact h
      · simp only [stepEv, heq]
        simp [enqueuedIds]
      · intro _
        simp only [stepEv, heq]
      · intro d hd
        simp only [stepEv, heq] at hd
        simp at hd
    · have hq' : s.queue ++ [task] = tk :: rest := hq
      refine ⟨?_, ?_, ?_, ?_⟩
      · intro _
        simp only [stepEv, heq]
        exact Nat.succ_le_of_lt hlt
      · simp only [stepEv, heq, Option.toList_some, List.map_cons, List.map_nil,
          List.singleton_append]
        simp [enqueuedIds, ← hq']
      · intro hcon
        simp only [stepEv, heq] at hcon
        simp at hcon
      · intro d hd
        simp only [stepEv, heq] at hd
        simp only [Option.some.injEq] at hd
        subst hd
        simp only [stepEv, heq]
        exact ⟨le_of_not_lt hns, trivial⟩
  | tick t =>
    rcases processStep_cases c qps t s with heq | ⟨tk, rest, hq, hlt, hns, heq⟩
    · refine ⟨?_, ?_, ?_, ?_⟩
      · intro h
        simp only [stepEv, heq]
        exact h
      · simp only [stepEv, heq]
        simp [enqueuedIds]
      · intro _
        simp only [stepEv, heq]
      · intro d hd
        simp only [stepEv, heq] at hd
        simp at hd
    · refine ⟨?_, ?_, ?_, ?_⟩
      · intro _
        simp only [stepEv, heq]
        exact Nat.succ_le_of_lt hlt
      · simp only [stepEv, heq, Option.toList_some, List.map_cons, List.map_nil,
          List.singleton_append]
        simp [enqueuedIds, ← hq]
      · intro hcon
        simp only [stepEv, heq] at hcon
        simp at hcon
      · intro d hd
        simp only [stepEv, heq] at hd
        simp only [Option.some.injEq] at hd
        subst hd
        simp only [stepEv, heq]
        exact ⟨le_of_not_lt hns, trivial⟩
  | complete t =>
    refine ⟨?_, ?_, ?_, ?_⟩
    · intro h
      show s.running - 1 ≤ c
      omega
    · simp [stepEv, enqueuedIds]
    · intro _
      rfl
    · intro d hcontra
      simp [stepEv] at hcontra

theorem enqueuedIds_cons (ev : RLEvent) (rest : List RLEvent) :
    enqueuedIds (ev :: rest) = enqueuedIds [ev] ++ enqueuedIds rest := by
  cases ev <;> simp [enqueuedIds]

theorem runEvents_inv (c : Nat) (qps : ℚ) (evs : List RLEvent) :
    ∀ (s : RLState) (ds : List (ℚ × Nat)),
      s.running ≤ c →
      List.Chain' (spaced qps) ds →
      (∀ d, ds.getLast? = some d → d.1 = s.lastRequest) →
      (runEvents c qps s ds evs).1.running ≤ c ∧
        List.Chain' (spaced qps) (runEvents c qps s ds evs).2 ∧
        (∀ d, (runEvents c qps s ds evs).2.getLast? = some d →
          d.1 = (runEvents c qps s ds evs).1.lastRequest) ∧
        (runEvents c qps s ds evs).2.map Prod.snd ++
            (runEvents c qps s ds evs).1.queue =
          (ds.map Prod.snd ++ s.queue) ++ enqueuedIds evs := by
  induction evs with
  | nil =>
    intro s ds hrun hchain hlast
    exact ⟨hrun, hchain, hlast, by simp [runEvents, enqueuedIds]⟩
  | cons ev rest ih =>
    intro s ds hrun hchain hlast
    obtain ⟨hA, hQ, hNone, hSome⟩ := stepEv_spec c qps s ev
    rw [runEvents]
    have hchain' : List.Chain' (spaced qps) (ds ++ (stepEv c qps s ev).2.toList) := by
      cases hopt : (stepEv c qps s ev).2 with
      | none => simpa using hchain
      | some d =>
        simp only [Option.toList_some]
        rw [List.chain'_append]
        refine ⟨hchain, List.chain'_singleton d, ?_⟩
        intro x hx y hy
        simp only [List.head?_cons, Option.mem_def, Option.some.injEq] at hy
        subst hy
        have hx' := hlast x hx
        unfold spaced
        rw [hx']
        exact (hSome d hopt).1
    have hlast' : ∀ e, (ds ++ (stepEv c qps s ev).2.toList).getLast? = some e →
        e.1 = (stepEv c qps s ev).1.lastRequest := by
      cases hopt : (stepEv c qps s ev).2 with
      | none =>
        intro e he
        simp only [Option.toList_none, List.append_nil] at he
        rw [hNone hopt]
        exact hlast e he
      | some d =>
        intro e he
        simp only [Option.toList_some] at he
        rw [List.getLast?_append_cons] at he
        simp only [List.getLast?_singleton, Option.some.injEq] at he
        subst he
        exact ((hSome d hopt).2).symm
    have hrec := ih (stepEv c qps s ev).1 (ds ++ (stepEv c qps s ev).2.toList)
      (hA hrun) hchain' hlast'
    refine ⟨hrec.1, hrec.2.1, hrec.2.2.1, ?_⟩
    rw [hrec.2.2.2, enqueuedIds_cons]
    rw [List.map_append]
    simp only [List.append_assoc]
    congr 1
    rw [← List.append_assoc, hQ, List.append_assoc]

/-! ### C6 -/

/-- C6: from the constructor state, after any event sequence: at most `c`
tasks run concurrently; the dispatched tasks followed by the still-pending
queue equal the submitted tasks in submission order (FIFO dispatch); any
two consecutive dispatches are at least `1000 / qps` ms apart, and with
`qps > 0` any two dispatches whatsoever are so spaced. -/
theorem c6_rate_limiter (c : Nat) (qps : ℚ) (evs : List RLEvent)
    (hq : 0 < qps) :
    (runEvents c qps rlInit [] evs).1.running ≤ c ∧
      (runEvents c qps rlInit [] evs).2.map Prod.snd ++
          (runEvents c qps rlInit [] evs).1.queue = enqueuedIds evs ∧
      List.Chain' (spaced qps) (runEvents c qps rlInit [] evs).2 ∧
      List.Pairwise (spaced qps) (runEvents c qps rlInit [] evs).2 := by
  have h := runEvents_inv c qps evs rlInit []
    (by simp [rlInit]) List.chain'_nil (by simp)
  refine ⟨h.1, ?_, h.2.1, ?_⟩
  · have hacc := h.2.2.2
    simpa [rlInit] using hacc
  · have htrans : ∀ a b e : ℚ × Nat,
        spaced qps a b → spaced qps b e → spaced qps a e := by
      intro a b e hab hbe
      unfold spaced at hab hbe ⊢
      have hpos : 0 ≤ 1000 / qps := by positivity
      linarith
    exact (@List.chain'_iff_pairwise _ _ ⟨htrans⟩ _).mp h.2.1

/-- Concrete event trace for the C6 witness: two submissions one
millisecond apart under concurrency 1 and 1 qps. -/
def c6Events : List RLEvent := [RLEvent.enqueue 0 2000, RLEvent.enqueue 1 2001]

/-- C6 witness: the rate-limiter guarantees at concurrency 1, 1 qps, on a
concrete two-submission trace. -/
theorem c6_witness :
    (runEvents 1 1 rlInit [] c6Events).1.running ≤ 1 ∧
      (runEvents 1 1 rlInit [] c6Events).2.map Prod.snd ++
          (runEvents 1 1 rlInit [] c6Events).1.queue = enqueuedIds c6Events ∧
      List.Chain' (spaced 1) (runEvents 1 1 rlInit [] c6Events).2 ∧
      List.Pairwise (spaced 1) (runEvents 1 1 rlInit [] c6Events).2 :=
  c6_rate_limiter 1 1 c6Events (by norm_num)

/-! ### `ManifestManager.generateUniqueFilename` and
`ManifestManager.loadExistingManifest` (`src/src/lib/manifest.ts`) -/

/-- JavaScript regex `\s` character class (the code points it matches). -/
def isJsSpace (c : Char) : Bool :=
  c == ' ' || c == '\t' || c == '\n' || c == '\r' ||
    c.toNat == 0xb || c.toNat == 0xc || c.toNat == 0xa0 || c.toNat == 0x1680 ||
    (0x2000 ≤ c.toNat && c.toNat ≤ 0x200a) ||
    c.toNat == 0x2028 || c.toNat == 0x2029 || c.toNat == 0x202f ||
    c.toNat == 0x205f || c.toNat == 0x3000 || c.toNat == 0xfeff

/-- Hangul syllables `가-힣` (U+AC00..U+D7A3). -/
def isHangul (c : Char) : Bool := 0xAC00 ≤ c.toNat && c.toNat ≤ 0xD7A3

/-- Characters surviving `.replace(/[^\w\s\-_가-힣]/g, '')`. -/
def keepChar (c : Char) : Bool :=
  c.isAlphanum || c == '_' || isJsSpace c || c == '-' || isHangul c

/-- `.replace(/\s+/g, '_')`: each maximal whitespace run becomes one `_`. -/
def collapseSpaces : List Char → List Char
  | [] => []
  | c :: rest =>
    if isJsSpace c then '_' :: collapseSpaces (rest.dropWhile isJsSpace)
    else c :: collapseSpaces rest
termination_by l => l.length
decreasing_by
  · simp only [List.length_cons]
    exact Nat.lt_succ_of_le ((List.dropWhile_sublist _).length_le)
  · simp

/-- The `sanitizedText` computation of `generateUniqueFilename`
(`substring(0, 20)` keeps the first 20 UTF-16 units; the claim-relevant
inputs contain no surrogate pairs, so this is the first 20 characters). -/
def sanitizeText (text : String) : String :=
  String.mk ((collapseSpaces (text.toList.filter keepChar)).take 20)

/-- JavaScript `String.prototype.replace` with a plain-string pattern and
empty replacement: remove the first occurrence of `pat`. -/
def removeFirst (s pat : List Char) : List Char :=
  match s with
  | [] => []
  | c :: rest =>
    if pat.isPrefixOf (c :: rest) then (c :: rest).drop pat.length
    else c :: removeFirst rest pat

/-- Decimal digit character. -/
def digitChar (d : Nat) : Char :=
  if d = 0 then '0' else if d = 1 then '1' else if d = 2 then '2'
  else if d = 3 then '3' else if d = 4 then '4' else if d = 5 then '5'
  else if d = 6 then '6' else if d = 7 then '7' else if d = 8 then '8'
  else '9'

/-- Little-endian decimal digits of a positive number. -/
def decDigitsAux (n : Nat) : List Char :=
  if h : n = 0 then []
  else digitChar (n % 10) :: decDigitsAux (n / 10)
termination_by n
decreasing_by exact Nat.div_lt_self (Nat.pos_of_ne_zero h) (by omega)

/-- Decimal notation for a natural number, as produced by a JS template
literal `${counter}`. -/
def natDecimal (n : Nat) : String :=
  if n = 0 then "0" else String.mk (decDigitsAux n).reverse

/-- Numeric value of a decimal digit character. -/
def digitVal (c : Char) : Nat := c.toNat - 48

/-- Value of a little-endian digit list. -/
def decValAux : List Char → Nat
  | [] => 0
  | c :: r => digitVal c + 10 * decValAux r

theorem digitVal_digitChar : ∀ d, d < 10 → digitVal (digitChar d) = d := by decide

theorem decValAux_decDigitsAux : ∀ n, decValAux (decDigitsAux n) = n := by
  intro n
  induction n using Nat.strong_induction_on with
  | _ n ih =>
    rw [decDigitsAux]
    by_cases h : n = 0
    · simp [h, decValAux]
    · rw [dif_neg h]
      rw [decValAux]
      rw [ih (n / 10) (Nat.div_lt_self (Nat.pos_of_ne_zero h) (by omega))]
      rw [digitVal_digitChar _ (Nat.mod_lt n (by omega))]
      omega

theorem natDecimal_inj : ∀ m n, natDecimal m = natDecimal n → m = n := by
  have hstr : ∀ a b : List Char, String.mk a = String.mk b → a = b := by
    intro a b h
    have := congrArg String.data h
    simpa using this
  intro m n h
  unfold natDecimal at h
  by_cases hm : m = 0 <;> by_cases hn : n = 0
  · omega
  · rw [if_pos hm, if_neg hn] at h
    have hd : ['0'] = (decDigitsAux n).reverse := hstr _ _ h
    have : decDigitsAux n = ['0'] := by
      have := congrArg List.reverse hd
      simpa using this.symm
    have hv := decValAux_decDigitsAux n
    rw [this] at hv
    simp [decValAux, digitVal] at hv
    omega
  · rw [if_neg hm, if_pos hn] at h
    have hd : (decDigitsAux m).reverse = ['0'] := hstr _ _ h
    have : decDigitsAux m = ['0'] := by
      have := congrArg List.reverse hd
      simpa using this
    have hv := decValAux_decDigitsAux m
    rw [this] at hv
    simp [decValAux, digitVal] at hv
    omega
  · rw [if_neg hm, if_neg hn] at h
    have hd := hstr _ _ h
    have hdg : decDigitsAux m = decDigitsAux n := by
      have := congrArg List.reverse hd
      simpa using this
    have hv1 := decValAux_decDigitsAux m
    have hv2 := decValAux_decDigitsAux n
    rw [hdg] at hv1
    omega

/-- Candidate filename tried by the `while` loop at counter `k`:
`baseFilename` first, then `nameWithoutExt_counter + extension`. -/
def candName (base nwe ext : String) (k : Nat) : String :=
  if k = 0 then base else nwe ++ "_" ++ natDecimal k ++ ext

theorem candName_inj (base nwe ext : String) (j k : Nat)
    (hj : 1 ≤ j) (hk : 1 ≤ k)
    (h : candName base nwe ext j = candName base nwe ext k) : j = k := by
  unfold candName at h
  rw [if_neg (by omega), if_neg (by omega)] at h
  apply natDecimal_inj
  have h' := congrArg String.data h
  have hassoc : ∀ x : String, (nwe ++ "_" ++ x ++ ext).data =
      (nwe.data ++ "_".data) ++ (x.data ++ ext.data) := by
    intro x
    show (nwe.data ++ "_".data ++ x.data) ++ ext.data = _
    simp [List.append_assoc]
  rw [hassoc, hassoc] at h'
  have h'' := List.append_cancel_left h'
  have h3 := List.append_cancel_right h''
  have hext : ∀ s t : String, s.data = t.data → s = t := by
    intro s t hst
    cases s
    cases t
    exact congrArg String.mk hst
  exact hext _ _ h3

/-- The `while` loop of `generateUniqueFilename`, searching from counter
`k`; `fuel` bounds the number of iterations and is instantiated large
enough that the loop always exits through its guard. -/
def genSearch (used : List String) (base nwe ext : String) :
    Nat → Nat → String
  | k, 0 => candName base nwe ext k
  | k, fuel + 1 =>
    if used.contains (candName base nwe ext k) then
      genSearch used base nwe ext (k + 1) fuel
    else candName base nwe ext k

/-- `const code = candidate.code || 'UNK'` and
`${code}_${sanitizedText}${extension}`. -/
def gufBase (code : Option String) (text extension : String) : String :=
  (match code with
    | none => "UNK"
    | some st => if st == "" then "UNK" else st) ++
    "_" ++ sanitizeText text ++ extension

/-- `baseFilename.replace(extension, '')`. -/
def gufNwe (code : Option String) (text extension : String) : String :=
  String.mk (removeFirst (gufBase code text extension).toList extension.toList)

/-- `ManifestManager.generateUniqueFilename`: `existingFiles` is the
in-memory registry (`this.existingFiles`), `dirFiles` the filenames
present in the output directory (consulted through `fs.existsSync`).
Returns the chosen filename and the updated registry. -/
def generateUniqueFilename (existingFiles dirFiles : List String)
    (code : Option String) (text extension : String) : String × List String :=
  let used := existingFiles ++ dirFiles
  let name := genSearch used (gufBase code text extension)
    (gufNwe code text extension) extension 0 (used.length + 2)
  (name, name :: existingFiles)

theorem genSearch_not_mem (used : List String) (base nwe ext : String) :
    ∀ fuel k, (∃ j, k ≤ j ∧ j < k + fuel ∧ candName base nwe ext j ∉ used) →
      genSearch used base nwe ext k fuel ∉ used := by
  intro fuel
  induction fuel with
  | zero =>
    rintro k ⟨j, hj1, hj2, _⟩
    omega
  | succ f ih =>
    rintro k ⟨j, hj1, hj2, hj3⟩
    rw [genSearch]
    by_cases hc : used.contains (candName base nwe ext k) = true
    · rw [if_pos hc]
      apply ih (k + 1)
      refine ⟨j, ?_, by omega, hj3⟩
      rcases Nat.eq_or_lt_of_le hj1 with heq | hlt
      · exfalso
        apply hj3
        subst heq
        simpa using hc
      · omega
    · rw [if_neg hc]
      intro hmem
      exact hc (by simpa using hmem)

theorem freeIndex (used : List String) (base nwe ext : String) :
    ∃ j, 1 ≤ j ∧ j < used.length + 2 ∧ candName base nwe ext j ∉ used := by
  by_contra hcon
  push_neg at hcon
  have hinj : Set.InjOn (candName base nwe ext)
      ↑(Finset.Ico 1 (used.length + 2)) := by
    intro a ha b hb hab
    simp only [Finset.coe_Ico, Set.mem_Ico] at ha hb
    exact candName_inj base nwe ext a b ha.1 hb.1 hab
  have hsub : (Finset.Ico 1 (used.length + 2)).image (candName base nwe ext) ⊆
      used.toFinset := by
    intro x hx
    rw [Finset.mem_image] at hx
    obtain ⟨j, hj, rfl⟩ := hx
    rw [Finset.mem_Ico] at hj
    exact List.mem_toFinset.mpr (hcon j hj.1 hj.2)
  have hcard1 : ((Finset.Ico 1 (used.length + 2)).image
      (candName base nwe ext)).card = used.length + 1 := by
    rw [Finset.card_image_of_injOn hinj, Nat.card_Ico]
    omega
  have hcard2 := Finset.card_le_card hsub
  have hcard3 := List.toFinset_card_le used
  omega

theorem generateUniqueFilename_fresh (existingFiles dirFiles : List String)
    (code : Option String) (text extension : String) :
    (generateUniqueFilename existingFiles dirFiles code text extension).1 ∉
        existingFiles ∧
      (generateUniqueFilename existingFiles dirFiles code text extension).1 ∉
        dirFiles ∧
      (generateUniqueFilename existingFiles dirFiles code text extension).2 =
        (generateUniqueFilename existingFiles dirFiles code text extension).1 ::
          existingFiles := by
  obtain ⟨j, hj1, hj2, hj3⟩ := freeIndex (existingFiles ++ dirFiles)
    (gufBase code text extension) (gufNwe code text extension) extension
  have h := genSearch_not_mem (existingFiles ++ dirFiles)
    (gufBase code text extension) (gufNwe code text extension) extension
    ((existingFiles ++ dirFiles).length + 2) 0 ⟨j, by omega, by omega, hj3⟩
  rw [List.mem_append] at h
  push_neg at h
  exact ⟨h.1, h.2, rfl⟩

/-- One filename request processed by the engine within a case. -/
structure GenReq where
  code : Option String
  text : String
  ext : String
deriving DecidableEq, Repr

/-- Process a sequence of filename requests against a fixed output
directory, threading the registry exactly as the source does (generate,
then `this.existingFiles.add`).  Returns the generated names in order and
the final registry. -/
def runGen (dirFiles : List String) :
    List String → List GenReq → List String × List String
  | registry, [] => ([], registry)
  | registry, r :: rest =>
    let p := generateUniqueFilename registry dirFiles r.code r.text r.ext
    let q := runGen dirFiles p.2 rest
    (p.1 :: q.1, q.2)

theorem runGen_spec (dirFiles : List String) (reqs : List GenReq) :
    ∀ registry,
      (runGen dirFiles registry reqs).1.Nodup ∧
        ∀ n ∈ (runGen dirFiles registry reqs).1,
          n ∉ dirFiles ∧ n ∉ registry := by
  induction reqs with
  | nil => intro registry; simp [runGen]
  | cons r rest ih =>
    intro registry
    obtain ⟨h1, h2, h3⟩ :=
      generateUniqueFilename_fresh registry dirFiles r.code r.text r.ext
    have hrec := ih (generateUniqueFilename registry dirFiles
      r.code r.text r.ext).2
    rw [runGen]
    constructor
    · rw [List.nodup_cons]
      refine ⟨?_, hrec.1⟩
      intro hmem
      have := (hrec.2 _ hmem).2
      rw [h3] at this
      exact this (List.mem_cons_self _ _)
    · intro n hn
      rcases List.mem_cons.mp hn with heq | hmem
      · subst heq
        exact ⟨h2, h1⟩
      · have := hrec.2 n hmem
        refine ⟨this.1, ?_⟩
        intro hreg
        apply this.2
        rw [h3]
        exact List.mem_cons_of_mem _ hreg

/-- `ManifestManager.loadExistingManifest`: seed the registry with the
filenames of the loaded manifest's successful entries (the registry is
empty in a fresh manager). -/
def loadSeed (m : LibManifest) : List String :=
  (m.processedFiles.filter (fun e => e.success)).map (fun e => e.filename)

/-! ### C3 -/

/-- C3: after seeding the registry from a prior manifest, every filename
generated in a case is distinct from all previously generated filenames
(no two generated names collide), from every file already present in the
output directory, and from the filename of every successful entry of the
loaded manifest. -/
theorem c3_unique_filenames (dirFiles : List String) (m : LibManifest)
    (reqs : List GenReq) :
    (runGen dirFiles (loadSeed m) reqs).1.Nodup ∧
      (∀ n ∈ (runGen dirFiles (loadSeed m) reqs).1, n ∉ dirFiles) ∧
      (∀ n ∈ (runGen dirFiles (loadSeed m) reqs).1,
        ∀ e ∈ m.processedFiles, e.success = true → n ≠ e.filename) := by
  have h := runGen_spec dirFiles reqs (loadSeed m)
  refine ⟨h.1, fun n hn => (h.2 n hn).1, ?_⟩
  intro n hn e he hs heq
  apply (h.2 n hn).2
  rw [heq]
  exact List.mem_map.mpr ⟨e, List.mem_filter.mpr ⟨he, by simp [hs]⟩, rfl⟩

/-- Prior manifest used by the C3 witness: one successful entry. -/
def c3Manifest : LibManifest :=
  { totalCandidates := 1,
    processedFiles := [{ code := some "AP", originalText := "t",
                         filename := "AP_t.pdf", size := 5, success := true }],
    missing := [],
    summary := { foundCodes := ["AP"], totalSize := 5, successCount := 1,
                 failCount := 0 } }

/-- Requests used by the C3 witness: two identical requests, which force
the counter suffix on the second. -/
def c3Reqs : List GenReq :=
  [{ code := some "AP", text := "t", ext := ".pdf" },
   { code := some "AP", text := "t", ext := ".pdf" }]

/-- C3 witness: the uniqueness guarantees on a concrete resumed case with
one file already on disk. -/
theorem c3_witness :
    (runGen ["AP_x.pdf"] (loadSeed c3Manifest) c3Reqs).1.Nodup ∧
      (∀ n ∈ (runGen ["AP_x.pdf"] (loadSeed c3Manifest) c3Reqs).1,
        n ∉ ["AP_x.pdf"]) ∧
      (∀ n ∈ (runGen ["AP_x.pdf"] (loadSeed c3Manifest) c3Reqs).1,
        ∀ e ∈ c3Manifest.processedFiles, e.success = true →
          n ≠ e.filename) :=
  c3_unique_filenames ["AP_x.pdf"] c3Manifest c3Reqs

/-! ### `src/src/utils/downloader.ts`: integrity checks and the
`clickResolveAndSaveV2` decision chain -/

/-- `FILE_CT` regex test (anchored alternation, case-insensitive);
`jpe?g` matches both `jpeg` and `jpg`. -/
def fileCT (ct : String) : Bool :=
  let l := strLower ct
  strStarts l "application/pdf" || strStarts l "application/octet-stream" ||
    strStarts l "text/csv" || strStarts l "application/vnd.ms-excel" ||
    strStarts l
      "application/vnd.openxmlformats-officedocument.spreadsheetml.sheet" ||
    strStarts l "application/zip" || strStarts l "image/png" ||
    strStarts l "image/jpeg" || strStarts l "image/jpg" ||
    strStarts l "image/tiff" || strStarts l "image/gif"

/-- The main-path HTML-masquerade test of `clickResolveAndSaveV2` step 3:
`/<html|<!doctype/i` over the first 500 bytes of the body (bodies are
modelled as their byte-per-character text). -/
def htmlMasquerade (body : String) : Bool :=
  let contentStr := String.mk (body.toList.take 500)
  let l := strLower contentStr
  strIncludes l "<html" || strIncludes l "<!doctype"

/-- part_005 `performDownload` integrity check: only bodies shorter than
512 bytes are inspected, and only for error-text markers in their first
200 bytes — there is no HTML-marker check. -/
def part005Rejects (body : String) : Bool :=
  if body.length < 512 then
    let text := String.mk (body.toList.take 200)
    strIncludes text "error" || strIncludes text "not found" ||
      strIncludes text "403" || strIncludes text "404"
  else false

/-- An observed HTTP response. -/
structure RespInfo where
  ct : String
  status : Nat
  body : String
deriving DecidableEq, Repr

/-- `sniffFileResponse`: most recent response with an allow-listed
content-type and status 200 (the source reverses the bucket and takes the
first hit). -/
def sniffFileResponse (resps : List RespInfo) : Option RespInfo :=
  resps.reverse.find? (fun r => fileCT r.ct && r.status == 200)

/-- Abstraction of the popup handed to the popup-inspection tier.  The
external helpers (`extractPdfFromHtml`, `clickDownloadButtonsInPage`,
`fetchDirectFromViewer`, the DOM viewer-src fetch) involve live pages and
the network; their outcomes enter the model as oracle fields. -/
structure PopupInfo where
  url : String
  extractPdf : Option String
  resps : List RespInfo
  buttonSave : Option String
  viewerDirect : Option String
  domSrcResp : Option RespInfo
deriving DecidableEq, Repr

/-- The signal and fallback environment of one `clickResolveAndSaveV2`
invocation once the click block has settled. -/
structure ClickInputs where
  download : Bool
  dlSaveOk : Bool
  popup : Option PopupInfo
  mainResps : List RespInfo
  originalHref : Option String
  hrefFetch : Option String
  osEnabled : Bool
  osPickup : Option String
deriving DecidableEq, Repr

/-- The strategy tiers of `clickResolveAndSaveV2`, in the order the code
checks them. -/
inductive Strategy where
  | popupPaFileExtract
  | downloadSignal
  | popupResponse
  | popupButton
  | popupDirect
  | popupDom
  | mainResponse
  | hrefDirect
  | osPickup
deriving DecidableEq, Repr

/-- The early `paFile.php` branch inside the click block: fires when a
popup opened whose URL contains `/pa/paFile.php` and `extractPdfFromHtml`
succeeds — checked before the captured download event is consulted. -/
def paFileHit (inp : ClickInputs) : Option String :=
  match inp.popup with
  | none => none
  | some p => if strIncludes p.url "/pa/paFile.php" then p.extractPdf else none

/-- Step 2 (popup inspection): response sniffing inside the popup, then
nested download buttons, then `fetchDirectFromViewer`, then a viewer
`src` fetched directly and accepted on a `FILE_CT` content-type.  The
popup-response save writes the body without any HTML-marker check. -/
def popupInspect (p : PopupInfo) : Option Strategy :=
  match sniffFileResponse p.resps with
  | some _ => some .popupResponse
  | none =>
    match p.buttonSave with
    | some _ => some .popupButton
    | none =>
      match p.viewerDirect with
      | some _ => some .popupDirect
      | none =>
        match p.domSrcResp with
        | some r => if fileCT r.ct then some .popupDom else none
        | none => none

/-- Step 5: the opt-in OS-downloads folder pickup. -/
def osStepRun (inp : ClickInputs) : Option Strategy :=
  if inp.osEnabled then
    match inp.osPickup with
    | some _ => some .osPickup
    | none => none
  else none

/-- The decision chain of `clickResolveAndSaveV2` after the click: the
winning strategy (`none` means no file, caller records a link-only entry)
and whether the popup, when one opened, was closed before returning. -/
def clickResolve (inp : ClickInputs) : Option Strategy × Bool :=
  match paFileHit inp with
  | some _ => (some .popupPaFileExtract, true)
  | none =>
    if inp.download && inp.dlSaveOk then
      (some .downloadSignal, inp.popup.isNone)
    else
      match (match inp.popup with
             | none => none
             | some p => popupInspect p : Option Strategy) with
      | some s => (some s, true)
      | none =>
        match sniffFileResponse inp.mainResps with
        | some r =>
          if htmlMasquerade r.body then (none, true)
          else (some .mainResponse, true)
        | none =>
          match inp.originalHref with
          | some _ =>
            match inp.hrefFetch with
            | some _ => (some .hrefDirect, true)
            | none => (osStepRun inp, true)
          | none => (osStepRun inp, true)

/-! ### `UrlResolver.resolveLinkBased` (`src/src/lib/manifest.ts`) -/

/-- The signal environment of one `resolveLinkBased` invocation. -/
structure LinkInputs where
  href : String
  clickOk : Bool
  newPage : Option String
  download : Option String
  popup : Option String
  currentUrl : String
deriving DecidableEq, Repr

/-- The outcome tiers of `resolveLinkBased`, in checking order. -/
inductive LinkStrategy where
  | shortCircuit
  | downloadSig
  | newPageSig
  | popupSig
  | urlChange
deriving DecidableEq, Repr

/-- `resolveLinkBased`: short-circuit absolute non-script hrefs, then the
settled race in source order — download, new page, popup, in-page URL
change (a failed click surfaces as a failure). -/
def resolveLinkBased (inp : LinkInputs) : Option (LinkStrategy × String) :=
  if strStarts inp.href "http" && !(strIncludes inp.href "javascript:") then
    some (.shortCircuit, inp.href)
  else if !inp.clickOk then none
  else
    match inp.download with
    | some u => some (.downloadSig, u)
    | none =>
      match inp.newPage with
      | some u => some (.newPageSig, u)
      | none =>
        match inp.popup with
        | some u => some (.popupSig, u)
        | none =>
          if inp.currentUrl ≠ inp.href then some (.urlChange, inp.currentUrl)
          else none

/-! ### C7 -/

/-- C7 (amended): `clickResolveAndSaveV2` resolves competing signals in
the fixed order paFile-popup-extraction, then download signal, then popup
inspection (response > button > direct > viewer-src), then main-context
response sniffing (aborting on an HTML body), then the direct-href
fallback, then OS pickup; `resolveLinkBased` applies download >
new-page > popup > in-page-URL-change.  The first qualifying signal in
that order determines the result — but the paFile popup extraction, not
the download signal, sits at the top. -/
theorem c7_priority :
    (∀ inp : ClickInputs, (paFileHit inp).isSome = true →
      (clickResolve inp).1 = some Strategy.popupPaFileExtract) ∧
    (∀ inp : ClickInputs, paFileHit inp = none →
      inp.download = true → inp.dlSaveOk = true →
      (clickResolve inp).1 = some Strategy.downloadSignal) ∧
    (∀ (inp : ClickInputs) (p : PopupInfo) (s : Strategy),
      paFileHit inp = none → (inp.download && inp.dlSaveOk) = false →
      inp.popup = some p → popupInspect p = some s →
      (clickResolve inp).1 = some s) ∧
    (∀ (inp : ClickInputs) (r : RespInfo),
      paFileHit inp = none → (inp.download && inp.dlSaveOk) = false →
      (inp.popup = none ∨ ∃ p, inp.popup = some p ∧ popupInspect p = none) →
      sniffFileResponse inp.mainResps = some r →
      htmlMasquerade r.body = false →
      (clickResolve inp).1 = some Strategy.mainResponse) ∧
    (∀ (inp : ClickInputs) (h f : String),
      paFileHit inp = none → (inp.download && inp.dlSaveOk) = false →
      (inp.popup = none ∨ ∃ p, inp.popup = some p ∧ popupInspect p = none) →
      sniffFileResponse inp.mainResps = none →
      inp.originalHref = some h → inp.hrefFetch = some f →
      (clickResolve inp).1 = some Strategy.hrefDirect) ∧
    (∀ (li : LinkInputs) (u : String),
      (strStarts li.href "http" && !(strIncludes li.href "javascript:")) =
        false →
      li.clickOk = true → li.download = some u →
      resolveLinkBased li = some (LinkStrategy.downloadSig, u)) ∧
    (∀ (li : LinkInputs) (u : String),
      (strStarts li.href "http" && !(strIncludes li.href "javascript:")) =
        false →
      li.clickOk = true → li.download = none → li.newPage = none →
      li.popup = some u →
      resolveLinkBased li = some (LinkStrategy.popupSig, u)) ∧
    (∀ li : LinkInputs,
      (strStarts li.href "http" && !(strIncludes li.href "javascript:")) =
        false →
      li.clickOk = true → li.download = none → li.newPage = none →
      li.popup = none → li.currentUrl ≠ li.href →
      resolveLinkBased li = some (LinkStrategy.urlChange, li.currentUrl)) := by
  refine ⟨?_, ?_, ?_, ?_, ?_, ?_, ?_, ?_⟩
  · intro inp hpa
    rw [Option.isSome_iff_exists] at hpa
    obtain ⟨x, hx⟩ := hpa
    simp [clickResolve, hx]
  · intro inp hpa hdl hok
    simp [clickResolve, hpa, hdl, hok]
  · intro inp p s hpa hdl hp hs
    simp [clickResolve, hpa, hdl, hp, hs]
  · intro inp r hpa hdl hpopup hsniff hhtml
    rcases hpopup with hp | ⟨p, hp, hpi⟩ <;>
      simp [clickResolve, hpa, hdl, hp, hsniff, hhtml] <;>
      simp [hpi]
  · intro inp h f hpa hdl hpopup hsniff mhref hfetch
    rcases hpopup with hp | ⟨p, hp, hpi⟩ <;>
      simp [clickResolve, hpa, hdl, hp, hsniff, mhref, hfetch] <;>
      simp [hpi]
  · intro li u hsc hclick hdl
    simp [resolveLinkBased, hsc, hclick, hdl]
  · intro li u hsc hclick hdl hnp hp
    simp [resolveLinkBased, hsc, hclick, hdl, hnp, hp]
  · intro li hsc hclick hdl hnp hp hcu
    simp [resolveLinkBased, hsc, hclick, hdl, hnp, hp, hcu]

/-- Concrete race for the C7 counterexample: the download event fired and
its save would succeed, and a popup with a `/pa/paFile.php` URL opened
whose HTML extraction succeeds. -/
def c7Inp : ClickInputs :=
  { download := true, dlSaveOk := true,
    popup := some { url := "https://h/pa/paFile.php?cltrNo=1",
                    extractPdf := some "out.pdf", resps := [],
                    buttonSave := none, viewerDirect := none,
                    domSrcResp := none },
    mainResps := [], originalHref := none, hrefFetch := none,
    osEnabled := false, osPickup := none }

/-- C7 counterexample: with both a download signal and a qualifying
paFile popup in the race window, the engine returns the popup-extraction
outcome, not the download signal — the claimed download-first priority
fails. -/
theorem c7_counterexample :
    c7Inp.download = true ∧ c7Inp.dlSaveOk = true ∧
      (clickResolve c7Inp).1 = some Strategy.popupPaFileExtract ∧
      (clickResolve c7Inp).1 ≠ some Strategy.downloadSignal := by
  refine ⟨rfl, rfl, ?_, ?_⟩ <;> decide

/-- Concrete race for the C7 witness: a download signal with no popup. -/
def c7WitInp : ClickInputs :=
  { download := true, dlSaveOk := true, popup := none, mainResps := [],
    originalHref := none, hrefFetch := none, osEnabled := false,
    osPickup := none }

/-- C7 witness: the amended priority applied to a concrete input where
the download signal is the first qualifying one. -/
theorem c7_witness :
    (clickResolve c7WitInp).1 = some Strategy.downloadSignal :=
  c7_priority.2.1 c7WitInp rfl rfl rfl

/-! ### C8 -/

/-- C8 (amended): when a popup opened, every return path of
`clickResolveAndSaveV2` closes it before returning — except exactly the
path where the download signal wins the race (download event captured and
its save succeeds) while the popup's paFile extraction did not fire; on
that path the popup is left open. -/
theorem clickResolve_closed_of_no_dl_win (inp : ClickInputs)
    (hpa : paFileHit inp = none) (hdl : (inp.download && inp.dlSaveOk) = false) :
    (clickResolve inp).2 = true := by
  unfold clickResolve
  simp only [hpa, hdl, Bool.false_eq_true, if_false]
  split
  · rfl
  · split
    · split <;> rfl
    · split
      · split
        · rfl
        · rfl
      · rfl

theorem c8_popup_closed (inp : ClickInputs) (p : PopupInfo)
    (hp : inp.popup = some p) :
    (clickResolve inp).2 = false ↔
      paFileHit inp = none ∧ inp.download = true ∧ inp.dlSaveOk = true := by
  cases hpa : paFileHit inp with
  | some x =>
    have hsnd : (clickResolve inp).2 = true := by
      unfold clickResolve
      simp [hpa]
    simp [hsnd, hpa]
  | none =>
    by_cases hdl : (inp.download && inp.dlSaveOk) = true
    · rw [Bool.and_eq_true] at hdl
      have hsnd : (clickResolve inp).2 = false := by
        unfold clickResolve
        simp [hpa, hdl.1, hdl.2, hp]
      simp [hsnd, hdl.1, hdl.2]
    · have hsnd := clickResolve_closed_of_no_dl_win inp hpa
        (by rw [Bool.eq_false_iff]; exact hdl)
      rw [Bool.and_eq_true] at hdl
      push_neg at hdl
      simp only [hsnd]
      constructor
      · intro hfalse
        cases hfalse
      · rintro ⟨_, hdl1, hdl2⟩
        exact absurd hdl2 (hdl hdl1)

/-- Concrete race for the C8 counterexample: download and a (non-paFile)
popup both fired, the download save succeeds. -/
def c8Inp : ClickInputs :=
  { download := true, dlSaveOk := true,
    popup := some { url := "https://h/viewer.php", extractPdf := none,
                    resps := [], buttonSave := none, viewerDirect := none,
                    domSrcResp := none },
    mainResps := [], originalHref := none, hrefFetch := none,
    osEnabled := false, osPickup := none }

/-- C8 counterexample: on the path where the download signal wins while a
popup is open, `clickResolveAndSaveV2` returns without closing the popup,
leaving it orphaned — the claim that every return path closes the popup
fails. -/
theorem c8_counterexample :
    c8Inp.popup.isSome = true ∧
      (clickResolve c8Inp).1 = some Strategy.downloadSignal ∧
      (clickResolve c8Inp).2 = false := by
  refine ⟨rfl, ?_, ?_⟩ <;> decide

/-- Concrete input for the C8 witness: a popup with no download signal. -/
def c8WitInp : ClickInputs :=
  { download := false, dlSaveOk := false,
    popup := some { url := "https://h/viewer.php", extractPdf := none,
                    resps := [], buttonSave := none, viewerDirect := none,
                    domSrcResp := none },
    mainResps := [], originalHref := none, hrefFetch := none,
    osEnabled := false, osPickup := none }

/-- C8 witness: the amended characterisation applied to a concrete
popup-bearing input (here the popup is closed, and indeed no download
signal won). -/
theorem c8_witness :
    (clickResolve c8WitInp).2 = false ↔
      paFileHit c8WitInp = none ∧ c8WitInp.download = true ∧
        c8WitInp.dlSaveOk = true :=
  c8_popup_closed c8WitInp
    { url := "https://h/viewer.php", extractPdf := none, resps := [],
      buttonSave := none, viewerDirect := none, domSrcResp := none } rfl

/-! ### C5 -/

/-- C5 (amended): the HTML-marker integrity rejection holds on the
main-context response path of `clickResolveAndSaveV2` — a sniffed
response whose body carries an HTML marker in its first 500 bytes is
dropped and the whole chain returns null, even with an allow-listed
content-type — but not on the other save paths: the popup response path
persists any sniffed (allow-listed, 200) response without looking at the
body, and the part_005 transport check ignores bodies of 512 bytes or
more entirely. -/
theorem c5_integrity_paths :
    (∀ (inp : ClickInputs) (r : RespInfo),
      inp.popup = none → inp.download = false →
      sniffFileResponse inp.mainResps = some r →
      htmlMasquerade r.body = true →
      (clickResolve inp).1 = none) ∧
    (∀ body : String, 512 ≤ body.length → part005Rejects body = false) ∧
    (∀ (p : PopupInfo) (r : RespInfo),
      sniffFileResponse p.resps = some r →
      popupInspect p = some Strategy.popupResponse) := by
  refine ⟨?_, ?_, ?_⟩
  · intro inp r hp hdl hsniff hhtml
    have hpa : paFileHit inp = none := by simp [paFileHit, hp]
    unfold clickResolve
    simp [hpa, hdl, hp, hsniff, hhtml]
  · intro body hlen
    unfold part005Rejects
    rw [if_neg (by omega)]
  · intro p r hsniff
    unfold popupInspect
    rw [hsniff]

/-- A 606-byte payload that opens with an HTML document marker. -/
def htmlPayload : String := "<html>" ++ String.mk (List.replicate 600 'a')

/-- C5 counterexample: `htmlPayload` carries an HTML marker in its first
bytes and is declared `application/pdf` (allow-listed), yet the part_005
transport does not reject it (it is ≥ 512 bytes), and the popup response
path of the resolution engine saves it — the claimed rejection on every
save path fails. -/
theorem c5_counterexample :
    htmlMasquerade htmlPayload = true ∧
      fileCT "application/pdf" = true ∧
      part005Rejects htmlPayload = false ∧
      popupInspect
        { url := "u", extractPdf := none,
          resps := [{ ct := "application/pdf", status := 200,
                      body := htmlPayload }],
          buttonSave := none, viewerDirect := none, domSrcResp := none } =
        some Strategy.popupResponse := by
  refine ⟨?_, ?_, ?_, ?_⟩ <;> decide

/-- Concrete input for the C5 witness: a sniffed main-context response
with an allow-listed content-type but an HTML body. -/
def c5WitInp : ClickInputs :=
  { download := false, dlSaveOk := false, popup := none,
    mainResps := [{ ct := "application/pdf", status := 200,
                    body := "<html><body>x</body></html>" }],
    originalHref := none, hrefFetch := none, osEnabled := false,
    osPickup := none }

/-- C5 witness: the main-path HTML rejection applied at a concrete
input. -/
theorem c5_witness : (clickResolve c5WitInp).1 = none :=
  c5_integrity_paths.1 c5WitInp
    { ct := "application/pdf", status := 200,
      body := "<html><body>x</body></html>" }
    rfl rfl (by decide) (by decide)

/-! ### `toDirectDownloadFromHref` and `toDirectDownloadUrl`
(`src/src/utils/downloader.ts`) -/

/-- A parsed URL: scheme, host, pathname, and the query parameters in
order.  `new URL(x, base)` is WHATWG-parser behaviour and enters the
model as a parse oracle producing this record. -/
structure UrlRec where
  scheme : String
  host : String
  pathname : String
  params : List (String × String)
deriving DecidableEq, Repr

/-- `URLSearchParams.delete` restricted to the tail walk of `set`. -/
def paramDeleteAll (q : List (String × String)) (k : String) :
    List (String × String) :=
  q.filter (fun p => !(p.1 == k))

/-- `URLSearchParams.set`: overwrite the first entry with key `k` in
place, delete the other entries with that key, append when absent. -/
def paramSet : List (String × String) → String → String →
    List (String × String)
  | [], k, v => [(k, v)]
  | p :: rest, k, v =>
    if p.1 == k then (k, v) :: paramDeleteAll rest k
    else p :: paramSet rest k v

/-- `URLSearchParams.has`. -/
def hasParam (q : List (String × String)) (k : String) : Bool :=
  q.any (fun p => p.1 == k)

/-- `URLSearchParams.get`: value of the first entry with key `k`. -/
def paramGet (q : List (String × String)) (k : String) : Option String :=
  (q.find? (fun p => p.1 == k)).map (fun p => p.2)

/-- `if (u.searchParams.has('tp')) u.searchParams.set('tp', 'D');
else u.searchParams.append('tp', 'D');` -/
def forceTpD (q : List (String × String)) : List (String × String) :=
  if hasParam q "tp" then paramSet q "tp" "D" else q ++ [("tp", "D")]

/-- Is the character a single or double quote (the regex class `['"]`)? -/
def quoteChar (c : Char) : Bool := c == '\'' || c == '"'

/-- Lazy capture `(.*?)` up to the next quote; fails when no quote
follows. -/
def takeToQuote : List Char → Option (List Char)
  | [] => none
  | c :: r => if quoteChar c then some [] else (takeToQuote r).map (c :: ·)

/-- Scan for `/fileView\(['"](.*?)['"]/`: `fileView(` immediately followed
by a quote, capturing lazily up to the next quote. -/
def fileViewScan : List Char → Option (List Char)
  | [] => none
  | c :: rest =>
    if "fileView(".toList.isPrefixOf (c :: rest) then
      match (c :: rest).drop 9 with
      | q :: tail =>
        if quoteChar q then
          match takeToQuote tail with
          | some cap => some cap
          | none => fileViewScan rest
        else fileViewScan rest
      | [] => fileViewScan rest
    else fileViewScan rest

/-- The regex match of the `javascript:fileView(` branch. -/
def fileViewMatch (href : String) : Option String :=
  (fileViewScan href.toList).map String.mk

/-- The generic branch of `toDirectDownloadFromHref`: parse against the
base, rewrite a `/pa/paView.php` pathname to `/pa/paFile.php`, force
`tp=D`; `null` when `new URL` throws. -/
def toDirectGeneric (parse : String → String → Option UrlRec)
    (href baseUrl : String) : Option UrlRec :=
  match parse href baseUrl with
  | none => none
  | some u =>
    let u2 := if strEnds u.pathname "/pa/paView.php" then
                { u with pathname := "/pa/paFile.php" }
              else u
    some { u2 with params := forceTpD u2.params }

/-- `toDirectDownloadFromHref`: unwrap a `javascript:fileView('…')`
reference into its embedded path (prefixing `/pa/` when missing) before
parsing; otherwise parse the href itself; force `tp=D` in either case. -/
def toDirectDownloadFromHref (parse : String → String → Option UrlRec)
    (href baseUrl : String) : Option UrlRec :=
  if strStarts href "javascript:fileView(" then
    match fileViewMatch href with
    | some fp =>
      let fp2 := if strStarts fp "/pa/" then fp else "/pa/" ++ fp
      match parse fp2 baseUrl with
      | none => none
      | some u => some { u with params := forceTpD u.params }
    | none => toDirectGeneric parse href baseUrl
  else toDirectGeneric parse href baseUrl

/-- Legacy `toDirectDownloadUrl`: `null` unless the parsed URL's path
contains `/pa/paFile.php`; sets `tp=D` only when the first `tp` is not
already `D`. -/
def toDirectDownloadUrl (parse1 : String → Option UrlRec)
    (viewUrl : String) : Option UrlRec :=
  match parse1 viewUrl with
  | none => none
  | some u =>
    if strIncludes u.pathname "/pa/paFile.php" then
      if paramGet u.params "tp" == some "D" then some u
      else some { u with params := paramSet u.params "tp" "D" }
    else none

theorem paramDeleteAll_filter_eq (q : List (String × String)) (k : String) :
    (paramDeleteAll q k).filter (fun p => p.1 == k) = [] := by
  unfold paramDeleteAll
  induction q with
  | nil => rfl
  | cons p rest ih =>
    by_cases hp : (p.1 == k) = true <;> simp [List.filter_cons, hp, ih]

theorem paramSet_filter_key (q : List (String × String)) (k v : String) :
    (paramSet q k v).filter (fun p => p.1 == k) = [(k, v)] := by
  induction q with
  | nil => simp [paramSet, List.filter_cons]
  | cons p rest ih =>
    rw [paramSet]
    by_cases hp : (p.1 == k) = true
    · rw [if_pos hp]
      simp [List.filter_cons, paramDeleteAll_filter_eq]
    · rw [if_neg hp]
      simp [List.filter_cons, hp, ih]

theorem paramDeleteAll_filter_ne (q : List (String × String)) (k : String) :
    (paramDeleteAll q k).filter (fun p => !(p.1 == k)) =
      q.filter (fun p => !(p.1 == k)) := by
  unfold paramDeleteAll
  induction q with
  | nil => rfl
  | cons p rest ih =>
    by_cases hp : (p.1 == k) = true <;> simp [List.filter_cons, hp, ih]

theorem paramSet_filter_ne (q : List (String × String)) (k v : String) :
    (paramSet q k v).filter (fun p => !(p.1 == k)) =
      q.filter (fun p => !(p.1 == k)) := by
  induction q with
  | nil => simp [paramSet, List.filter_cons]
  | cons p rest ih =>
    rw [paramSet]
    by_cases hp : (p.1 == k) = true
    · rw [if_pos hp]
      simp [List.filter_cons, hp, paramDeleteAll_filter_ne]
    · rw [if_neg hp]
      simp [List.filter_cons, hp, ih]

theorem forceTpD_key (q : List (String × String)) :
    (forceTpD q).filter (fun p => p.1 == "tp") = [("tp", "D")] := by
  unfold forceTpD
  by_cases h : hasParam q "tp" = true
  · rw [if_pos h]
    exact paramSet_filter_key q "tp" "D"
  · rw [if_neg h]
    rw [List.filter_append]
    have hnone : q.filter (fun p => p.1 == "tp") = [] := by
      rw [List.filter_eq_nil]
      intro p hp hcon
      apply h
      unfold hasParam
      rw [List.any_eq_true]
      exact ⟨p, hp, hcon⟩
    rw [hnone]
    simp [List.filter_cons]

theorem forceTpD_ne (q : List (String × String)) :
    (forceTpD q).filter (fun p => !(p.1 == "tp")) =
      q.filter (fun p => !(p.1 == "tp")) := by
  unfold forceTpD
  by_cases h : hasParam q "tp" = true
  · rw [if_pos h]
    exact paramSet_filter_ne q "tp" "D"
  · rw [if_neg h]
    simp [List.filter_append, List.filter_cons]

theorem paramGet_paramSet (q : List (String × String)) (k v : String) :
    paramGet (paramSet q k v) k = some v := by
  induction q with
  | nil => simp [paramSet, paramGet]
  | cons p rest ih =>
    rw [paramSet]
    by_cases hp : (p.1 == k) = true
    · rw [if_pos hp]
      simp [paramGet]
    · rw [if_neg hp]
      unfold paramGet at ih ⊢
      have hstep : List.find? (fun e => e.1 == k) (p :: paramSet rest k v) =
          List.find? (fun e => e.1 == k) (paramSet rest k v) := by
        rw [List.find?]
        simp [hp]
      rw [hstep]
      exact ih

/-! ### C9 -/

/-- C9 (amended): `toDirectDownloadFromHref` behaves as the claim states —
for every reference (script-triggered references unwrapped to their
embedded path and prefixed with `/pa/` when needed) that parses, the
result forces the `tp` query parameter to `D` while preserving every
other query parameter verbatim, and it returns null exactly on
unparseable input.  The legacy `toDirectDownloadUrl`, however, also
returns null on parseable URLs whose path does not contain
`/pa/paFile.php`; when the path does contain it, `tp` is forced to `D`
(the query is left unchanged when its first `tp` is already `D`) and the
other parameters are preserved. -/
theorem c9_direct_url :
    (∀ (parse : String → String → Option UrlRec) (href baseUrl fp : String)
        (u₀ : UrlRec),
      strStarts href "javascript:fileView(" = true →
      fileViewMatch href = some fp →
      parse (if strStarts fp "/pa/" then fp else "/pa/" ++ fp) baseUrl =
        some u₀ →
      toDirectDownloadFromHref parse href baseUrl =
          some { u₀ with params := forceTpD u₀.params } ∧
        (forceTpD u₀.params).filter (fun p => p.1 == "tp") = [("tp", "D")] ∧
        (forceTpD u₀.params).filter (fun p => !(p.1 == "tp")) =
          u₀.params.filter (fun p => !(p.1 == "tp"))) ∧
    (∀ (parse : String → String → Option UrlRec) (href baseUrl : String)
        (u₀ : UrlRec),
      (strStarts href "javascript:fileView(" = false ∨
        fileViewMatch href = none) →
      parse href baseUrl = some u₀ →
      ∃ u, toDirectDownloadFromHref parse href baseUrl = some u ∧
        u.params.filter (fun p => p.1 == "tp") = [("tp", "D")] ∧
        u.params.filter (fun p => !(p.1 == "tp")) =
          u₀.params.filter (fun p => !(p.1 == "tp"))) ∧
    (∀ (parse : String → String → Option UrlRec) (href baseUrl : String),
      ((strStarts href "javascript:fileView(" = false ∨
          fileViewMatch href = none) →
        parse href baseUrl = none →
        toDirectDownloadFromHref parse href baseUrl = none) ∧
      (∀ fp, strStarts href "javascript:fileView(" = true →
        fileViewMatch href = some fp →
        parse (if strStarts fp "/pa/" then fp else "/pa/" ++ fp) baseUrl =
          none →
        toDirectDownloadFromHref parse href baseUrl = none)) ∧
    (∀ (parse1 : String → Option UrlRec) (viewUrl : String),
      (parse1 viewUrl = none → toDirectDownloadUrl parse1 viewUrl = none) ∧
      (∀ u₀, parse1 viewUrl = some u₀ →
        strIncludes u₀.pathname "/pa/paFile.php" = false →
        toDirectDownloadUrl parse1 viewUrl = none) ∧
      (∀ u₀, parse1 viewUrl = some u₀ →
        strIncludes u₀.pathname "/pa/paFile.php" = true →
        ∃ u, toDirectDownloadUrl parse1 viewUrl = some u ∧
          paramGet u.params "tp" = some "D" ∧
          u.params.filter (fun p => !(p.1 == "tp")) =
            u₀.params.filter (fun p => !(p.1 == "tp")))) := by
  refine ⟨?_, ?_, ?_, ?_⟩
  · intro parse href baseUrl fp u₀ hjs hmatch hparse
    unfold toDirectDownloadFromHref
    rw [if_pos hjs, hmatch]
    simp only [hparse]
    refine ⟨?_, forceTpD_key _, forceTpD_ne _⟩
    trivial
  · intro parse href baseUrl u₀ hbranch hparse
    have hgen : toDirectGeneric parse href baseUrl =
        some { (if strEnds u₀.pathname "/pa/paView.php" then
                  { u₀ with pathname := "/pa/paFile.php" } else u₀) with
               params := forceTpD (if strEnds u₀.pathname "/pa/paView.php" then
                  { u₀ with pathname := "/pa/paFile.php" } else u₀).params } := by
      unfold toDirectGeneric
      rw [hparse]
    have hsame : (if strEnds u₀.pathname "/pa/paView.php" then
        { u₀ with pathname := "/pa/paFile.php" } else u₀).params = u₀.params := by
      split <;> rfl
    have hfull : toDirectDownloadFromHref parse href baseUrl =
        toDirectGeneric parse href baseUrl := by
      unfold toDirectDownloadFromHref
      rcases hbranch with hb | hb
      · rw [if_neg (by simp [hb])]
      · by_cases hjs : strStarts href "javascript:fileView(" = true
        · rw [if_pos hjs, hb]
        · rw [if_neg hjs]
    refine ⟨_, hfull.trans hgen, ?_, ?_⟩
    · simp only [hsame]
      exact forceTpD_key _
    · simp only [hsame]
      exact forceTpD_ne _
  · intro parse href baseUrl
    constructor
    · intro hbranch hparse
      have hfull : toDirectDownloadFromHref parse href baseUrl =
          toDirectGeneric parse href baseUrl := by
        unfold toDirectDownloadFromHref
        rcases hbranch with hb | hb
        · rw [if_neg (by simp [hb])]
        · by_cases hjs : strStarts href "javascript:fileView(" = true
          · rw [if_pos hjs, hb]
          · rw [if_neg hjs]
      rw [hfull]
      unfold toDirectGeneric
      rw [hparse]
    · intro fp hjs hmatch hparse
      unfold toDirectDownloadFromHref
      rw [if_pos hjs, hmatch]
      simp only [hparse]
  · intro parse1 viewUrl
    refine ⟨?_, ?_, ?_⟩
    · intro hparse
      unfold toDirectDownloadUrl
      rw [hparse]
    · intro u₀ hparse hpath
      unfold toDirectDownloadUrl
      rw [hparse]
      simp [hpath]
    · intro u₀ hparse hpath
      unfold toDirectDownloadUrl
      rw [hparse]
      simp only [hpath, if_true]
      cases hget : paramGet u₀.params "tp" with
      | none =>
        refine ⟨{ u₀ with params := paramSet u₀.params "tp" "D" }, ?_,
          paramGet_paramSet _ _ _, paramSet_filter_ne _ _ _⟩
        rfl
      | some v =>
        by_cases hv : v = "D"
        · subst hv
          refine ⟨u₀, ?_, hget, rfl⟩
          rfl
        · refine ⟨{ u₀ with params := paramSet u₀.params "tp" "D" }, ?_,
            paramGet_paramSet _ _ _, paramSet_filter_ne _ _ _⟩
          rw [if_neg (by simp [hv])]

/-- Concrete parse oracle for the C9 counterexample: recognises exactly
one absolute URL whose path is not a `paFile.php` path. -/
def c9Parse1 : String → Option UrlRec := fun s =>
  if s == "https://h/view.php" then
    some { scheme := "https", host := "h", pathname := "/view.php",
           params := [] }
  else none

/-- C9 counterexample: `"https://h/view.php"` parses as a URL, yet the
legacy `toDirectDownloadUrl` returns null rather than a download-mode
URL — the claim that null is returned only on unparseable input fails. -/
theorem c9_counterexample :
    c9Parse1 "https://h/view.php" =
        some { scheme := "https", host := "h", pathname := "/view.php",
               params := [] } ∧
      toDirectDownloadUrl c9Parse1 "https://h/view.php" = none := by
  constructor <;> rfl

/-- Concrete parse oracle for the C9 witness. -/
def c9ParseW : String → String → Option UrlRec := fun s _ =>
  if s == "/pa/paView.php?cltrNo=1&tp=J" then
    some { scheme := "https", host := "h", pathname := "/pa/paView.php",
           params := [("cltrNo", "1"), ("tp", "J")] }
  else none

/-- The parsed record behind the C9 witness. -/
def c9U0 : UrlRec :=
  { scheme := "https", host := "h", pathname := "/pa/paView.php",
    params := [("cltrNo", "1"), ("tp", "J")] }

/-- C9 witness: the generic branch applied to a concrete viewer URL whose
`tp=J` is forced to `tp=D` with `cltrNo` preserved. -/
theorem c9_witness :
    ∃ u, toDirectDownloadFromHref c9ParseW "/pa/paView.php?cltrNo=1&tp=J"
        "https://h/x" = some u ∧
      u.params.filter (fun p => p.1 == "tp") = [("tp", "D")] ∧
      u.params.filter (fun p => !(p.1 == "tp")) =
        c9U0.params.filter (fun p => !(p.1 == "tp")) :=
  c9_direct_url.2.1 c9ParseW "/pa/paView.php?cltrNo=1&tp=J" "https://h/x"
    c9U0 (Or.inl (by decide)) (by decide)

end Passing
